import Mathlib

/-!
Verification of the feed ingestion and text-segmentation pipeline of the
AT-Protocol feed client: the Bluesky post normalizer, the retry/backoff
scheduler, the feed fetch/cache/pagination controller and the rich-text
segmenter with its UTF-8 byte offset / UTF-16 code unit converters.

The JavaScript sources are shallowly embedded: JSON-like runtime values
become the inductive `JsValue`, property access that can throw becomes
`Except Unit`, `try/catch` becomes pattern matching on the `Except`, and
the cooperative async control flow of the feed hook becomes an explicit
state-transition function fed with a sequence of network outcomes.
-/

namespace AT

/-- A JavaScript runtime value as handled by the normalizer: `undefined`,
`null`, booleans, numbers (modelled as rationals), strings, arrays and
plain objects (ordered field lists). -/
inductive JsValue where
  | undefined : JsValue
  | null : JsValue
  | bool : Bool → JsValue
  | num : ℚ → JsValue
  | str : String → JsValue
  | arr : List JsValue → JsValue
  | obj : List (String × JsValue) → JsValue
deriving Repr

/-- Field lookup in an object's field list (first binding wins). -/
def lookupField : List (String × JsValue) → String → Option JsValue
  | [], _ => none
  | (k, v) :: rest, key => if k = key then some v else lookupField rest key

mutual
/-- Hand-rolled decidable equality for `JsValue` (the nested `List`
occurrences defeat the automatic deriving). -/
def JsValue.beq : JsValue → JsValue → Bool
  | .undefined, .undefined => true
  | .null, .null => true
  | .bool a, .bool b => a == b
  | .num a, .num b => a == b
  | .str a, .str b => a == b
  | .arr a, .arr b => JsValue.beqList a b
  | .obj a, .obj b => JsValue.beqFields a b
  | _, _ => false

def JsValue.beqList : List JsValue → List JsValue → Bool
  | [], [] => true
  | a :: as_, b :: bs => JsValue.beq a b && JsValue.beqList as_ bs
  | _, _ => false

def JsValue.beqFields : List (String × JsValue) → List (String × JsValue) → Bool
  | [], [] => true
  | (ka, va) :: as_, (kb, vb) :: bs =>
      ka == kb && JsValue.beq va vb && JsValue.beqFields as_ bs
  | _, _ => false
end

instance : BEq JsValue := ⟨JsValue.beq⟩

/-- Plain property access `a.b`: throws a `TypeError` on `null`/`undefined`,
yields `undefined` on missing fields and on primitives. -/
def jsGet : JsValue → String → Except Unit JsValue
  | .undefined, _ => .error ()
  | .null, _ => .error ()
  | .obj fields, k => .ok ((lookupField fields k).getD .undefined)
  | _, _ => .ok .undefined

/-- Optional-chaining access `a?.b`: `undefined` on `null`/`undefined`,
otherwise like plain access. -/
def jsGetOpt (v : JsValue) (k : String) : JsValue :=
  match v with
  | .undefined => .undefined
  | .null => .undefined
  | .obj fields => (lookupField fields k).getD .undefined
  | _ => .undefined

/-- JavaScript truthiness. -/
def jsTruthy : JsValue → Bool
  | .undefined => false
  | .null => false
  | .bool b => b
  | .num n => n != 0
  | .str s => s != ""
  | .arr _ => true
  | .obj _ => true

/-- The short-circuiting `a || b` on values. -/
def jsOr (a b : JsValue) : JsValue := if jsTruthy a then a else b

/-- `isValidObject`: defined and not null. -/
def isValidObject (v : JsValue) : Bool :=
  !(v == JsValue.undefined) && !(v == JsValue.null)

/-- `isValidArray`: an array with at least one element. -/
def isValidArray : JsValue → Bool
  | .arr xs => xs.length > 0
  | _ => false

/-- `trim()`: strip leading and trailing whitespace (modelled on the
character list, which the kernel can evaluate). -/
def trimChars (cs : List Char) : List Char :=
  ((cs.dropWhile Char.isWhitespace).reverse.dropWhile Char.isWhitespace).reverse

/-- `isValidString`: a string whose trimmed form is non-empty. -/
def isValidString : JsValue → Bool
  | .str s => (trimChars s.data).length > 0
  | _ => false

/-- The underlying list of an array value (`[]` otherwise); used only where
the source has already checked `isValidArray`. -/
def asArr : JsValue → List JsValue
  | .arr xs => xs
  | _ => []

/-- The underlying string of a string value (`""` otherwise); used only where
the source has already checked `isValidString`. -/
def asStr : JsValue → String
  | .str s => s
  | _ => ""

/-! ## blueskyNormalizer: author normalization -/

/-- A normalized author object. Fields hold the raw `JsValue` the source
stores (the source copies raw values with `||`-defaults, without coercing). -/
structure Author where
  did : JsValue
  handle : JsValue
  displayName : JsValue
  avatar : JsValue
  description : JsValue
  followersCount : JsValue
  followsCount : JsValue
  postsCount : JsValue
  indexedAt : JsValue
deriving Repr

/-- `DEFAULT_AUTHOR`. -/
def DEFAULT_AUTHOR : Author where
  did := .str ""
  handle := .str ""
  displayName := .str ""
  avatar := .null
  description := .str ""
  followersCount := .num 0
  followsCount := .num 0
  postsCount := .num 0
  indexedAt := .str ""

/-- `normalizeAuthor`. After the `isValidObject` guard every access in the
body is on a non-null value, so the source's `try/catch` can never fire;
the body is therefore modelled directly. -/
def normalizeAuthor (input : JsValue) : Author :=
  if !isValidObject input then DEFAULT_AUTHOR
  else
    { did := jsOr (jsGetOpt input "did") (.str "")
      handle := jsOr (jsGetOpt input "handle") (.str "")
      displayName := jsOr (jsGetOpt input "displayName") (jsOr (jsGetOpt input "handle") (.str ""))
      avatar := jsOr (jsGetOpt input "avatar") .null
      description := jsOr (jsGetOpt input "description") (.str "")
      followersCount := jsOr (jsGetOpt input "followersCount") (.num 0)
      followsCount := jsOr (jsGetOpt input "followsCount") (.num 0)
      postsCount := jsOr (jsGetOpt input "postsCount") (.num 0)
      indexedAt := jsOr (jsGetOpt input "indexedAt") (.str "") }

/-- `getAuthorFromPost`: `post.author || post.post?.author || post.record?.author || null`. -/
def getAuthorFromPost (post : JsValue) : Author :=
  if !isValidObject post then DEFAULT_AUTHOR
  else
    normalizeAuthor
      (jsOr (jsGetOpt post "author")
        (jsOr (jsGetOpt (jsGetOpt post "post") "author")
          (jsOr (jsGetOpt (jsGetOpt post "record") "author") .null)))

/-! ## blueskyNormalizer: post field extraction -/

/-- `isRepost`: the item carries a repost `reason` marker. -/
def isRepost (post : JsValue) : Bool :=
  isValidObject post &&
    (jsTruthy (jsGetOpt post "reason") &&
      (jsGetOpt (jsGetOpt post "reason") "$type" == JsValue.str "app.bsky.feed.defs#reasonRepost"))

/-- `getOriginalPost`: unwrap one repost level (`post.post || post`). -/
def getOriginalPost (post : JsValue) : JsValue :=
  if !isValidObject post then .null
  else if isRepost post then jsOr (jsGetOpt post "post") post
  else post

/-- `getPostUri`. -/
def getPostUri (post : JsValue) : JsValue :=
  if !isValidObject post then .str ""
  else
    jsOr (jsGetOpt post "uri")
      (jsOr (jsGetOpt (jsGetOpt post "post") "uri")
        (jsOr (jsGetOpt (jsGetOpt post "record") "uri") (.str "")))

/-- `getPostCid`. -/
def getPostCid (post : JsValue) : JsValue :=
  if !isValidObject post then .str ""
  else
    jsOr (jsGetOpt post "cid")
      (jsOr (jsGetOpt (jsGetOpt post "post") "cid")
        (jsOr (jsGetOpt (jsGetOpt post "record") "cid") (.str "")))

/-- `getPostText`. -/
def getPostText (post : JsValue) : JsValue :=
  if !isValidObject post then .str ""
  else
    jsOr (jsGetOpt post "text")
      (jsOr (jsGetOpt (jsGetOpt post "record") "text")
        (jsOr (jsGetOpt (jsGetOpt post "value") "text")
          (jsOr (jsGetOpt (jsGetOpt (jsGetOpt post "post") "record") "text")
            (jsOr (jsGetOpt (jsGetOpt post "post") "text") (.str "")))))

/-- `getPostFacets`. -/
def getPostFacets (post : JsValue) : JsValue :=
  if !isValidObject post then .arr []
  else
    let facets :=
      jsOr (jsGetOpt post "facets")
        (jsOr (jsGetOpt (jsGetOpt post "record") "facets")
          (jsOr (jsGetOpt (jsGetOpt post "value") "facets")
            (jsOr (jsGetOpt (jsGetOpt (jsGetOpt post "post") "record") "facets")
              (jsOr (jsGetOpt (jsGetOpt post "post") "facets") .null))))
    if isValidArray facets then facets else .arr []

/-- `getPostIndexedAt`. -/
def getPostIndexedAt (post : JsValue) : JsValue :=
  if !isValidObject post then .str ""
  else
    jsOr (jsGetOpt post "indexedAt")
      (jsOr (jsGetOpt (jsGetOpt post "record") "createdAt")
        (jsOr (jsGetOpt (jsGetOpt post "value") "createdAt")
          (jsOr (jsGetOpt (jsGetOpt post "post") "indexedAt") (.str ""))))

/-- `getPostEmbed`. -/
def getPostEmbed (post : JsValue) : JsValue :=
  if !isValidObject post then .null
  else
    jsOr (jsGetOpt post "embed")
      (jsOr (jsGetOpt (jsGetOpt post "record") "embed")
        (jsOr (jsGetOpt (jsGetOpt post "value") "embed")
          (jsOr (jsGetOpt (jsGetOpt post "post") "embed")
            (jsOr (jsGetOpt (jsGetOpt (jsGetOpt post "post") "record") "embed") .null))))

/-! ## blueskyNormalizer: images -/

/-- A normalized image. `aspect` models the source's `aspectRatio` field;
`Option` fields model fields that are absent (not merely null) on some of
the object literals the source builds. -/
structure NImage where
  fullsize : JsValue
  thumb : JsValue
  alt : JsValue
  aspect : Option JsValue
  isExternal : Option Bool
deriving Repr

/-- The body of each `images.forEach` loop in `normalizeImages`: keep images
with a truthy `fullsize`. Accessing `image.fullsize` throws when the array
element is `null`/`undefined`. -/
def collectImages (imgs : List JsValue) : Except Unit (List NImage) :=
  imgs.foldlM
    (fun acc image => do
      let fullsize ← jsGet image "fullsize"
      if jsTruthy fullsize then
        pure (acc ++ [{ fullsize := fullsize
                        thumb := jsOr (jsGetOpt image "thumb") fullsize
                        alt := jsOr (jsGetOpt image "alt") (.str "")
                        aspect := some (jsOr (jsGetOpt image "aspectRatio") .null)
                        isExternal := none }])
      else pure acc)
    []

/-- Array/string indexing with `[0]` after an optional chain
(`record?.embeds?.[0]`). -/
def jsIndex0 (v : JsValue) : JsValue :=
  match v with
  | .arr xs => (xs.head?).getD .undefined
  | .obj fields => (lookupField fields "0").getD .undefined
  | .str s =>
      match s.toList with
      | [] => .undefined
      | c :: _ => .str (String.mk [c])
  | _ => .undefined

/-- `normalizeImages` body; its `try/catch` maps any throw to `[]`. -/
def normalizeImagesBody (embed : JsValue) : Except Unit (List NImage) := do
  let imgs1 ←
    if jsGetOpt embed "$type" == JsValue.str "app.bsky.embed.images" then
      if isValidArray (jsGetOpt embed "images") then
        collectImages (asArr (jsGetOpt embed "images"))
      else pure []
    else pure []
  let imgs2 ←
    if jsGetOpt embed "$type" == JsValue.str "app.bsky.embed.record" then
      let record := jsGetOpt embed "record"
      let recordEmbed :=
        jsOr (jsIndex0 (jsGetOpt record "embeds")) (jsGetOpt record "embed")
      if isValidObject recordEmbed &&
          (jsGetOpt recordEmbed "$type" == JsValue.str "app.bsky.embed.images") then
        if isValidArray (jsGetOpt recordEmbed "images") then
          collectImages (asArr (jsGetOpt recordEmbed "images"))
        else pure []
      else pure []
    else pure []
  let imgs3 ←
    if jsGetOpt embed "$type" == JsValue.str "app.bsky.embed.recordWithMedia" then
      let media := jsGetOpt embed "media"
      if isValidObject media &&
          (jsGetOpt media "$type" == JsValue.str "app.bsky.embed.images") then
        if isValidArray (jsGetOpt media "images") then
          collectImages (asArr (jsGetOpt media "images"))
        else pure []
      else pure []
    else pure []
  let imgs4 ←
    if jsGetOpt embed "$type" == JsValue.str "app.bsky.embed.external" then
      if isValidObject (jsGetOpt embed "external") &&
          jsTruthy (jsGetOpt (jsGetOpt embed "external") "thumb") then
        let ext := jsGetOpt embed "external"
        pure [{ fullsize := jsGetOpt ext "thumb"
                thumb := jsGetOpt ext "thumb"
                alt := jsOr (jsGetOpt ext "title") (jsOr (jsGetOpt ext "uri") (.str ""))
                aspect := none
                isExternal := some true }]
      else pure []
    else pure []
  pure (imgs1 ++ imgs2 ++ imgs3 ++ imgs4)

/-- `normalizeImages`. -/
def normalizeImages (embed : JsValue) : List NImage :=
  if !isValidObject embed then []
  else
    match normalizeImagesBody embed with
    | .ok l => l
    | .error _ => []

/-! ## blueskyNormalizer: YouTube id extraction

`extractYoutubeId` matches two regular expressions against the url. The
regexes are embedded as explicit backtracking matchers over character
lists: each matcher step returns the possible remainders in backtracking
priority order (greedy quantifiers longest-first, ordered alternation),
so the first overall success is the one JavaScript's engine reports. -/

/-- The character class `[^"&?\/\s]` of the capture groups. -/
def ytIdChar (c : Char) : Bool :=
  !(c == '"' || c == '&' || c == '?' || c == '/' || c.isWhitespace)

/-- `.` in a regex: any character but a line terminator. -/
def jsDot (c : Char) : Bool := !(c == '\n' || c == '\r')

/-- Match a literal, yielding the remainder. -/
def litRem (lit : List Char) (cs : List Char) : List (List Char) :=
  if lit.isPrefixOf cs then [cs.drop lit.length] else []

/-- Greedy `p*`: remainders longest-consumed-first. -/
def starRem (p : Char → Bool) : List Char → List (List Char)
  | [] => [[]]
  | c :: rest => if p c then starRem p rest ++ [c :: rest] else [c :: rest]

/-- Greedy `p+`. -/
def plusRem (p : Char → Bool) : List Char → List (List Char)
  | [] => []
  | c :: rest => if p c then starRem p rest else []

/-- A single character of a class. -/
def classRem (p : Char → Bool) : List Char → List (List Char)
  | [] => []
  | c :: rest => if p c then [rest] else []

/-- `[^\/]+\/.+\/` (first alternative inside the `youtube.com/` branch). -/
def ytAlt1 (cs : List Char) : List (List Char) :=
  ((((plusRem (fun c => !(c == '/')) cs).flatMap (litRem ['/'])).flatMap
      (plusRem jsDot)).flatMap (litRem ['/']))

/-- `(?:v|e(?:mbed)?)\/` (second alternative). -/
def ytAlt2 (cs : List Char) : List (List Char) :=
  (litRem ['v'] cs ++ litRem "embed".toList cs ++ litRem ['e'] cs).flatMap (litRem ['/'])

/-- `.*[?&]v=` (third alternative). -/
def ytAlt3 (cs : List Char) : List (List Char) :=
  ((starRem jsDot cs).flatMap (classRem (fun c => c == '?' || c == '&'))).flatMap
    (litRem "v=".toList)

/-- The prefix of the standard-link regex before the capture group:
`(?:youtube\.com\/(?:[^\/]+\/.+\/|(?:v|e(?:mbed)?)\/|.*[?&]v=)|youtu\.be\/)`. -/
def ytStdRem (cs : List Char) : List (List Char) :=
  (litRem "youtube.com/".toList cs).flatMap (fun r => ytAlt1 r ++ ytAlt2 r ++ ytAlt3 r) ++
    litRem "youtu.be/".toList cs

/-- The capture group `([^"&?\/\s]{11})`: exactly eleven class characters. -/
def ytCapture (cs : List Char) : Option String :=
  let cap := cs.take 11
  if cap.length == 11 && cap.all ytIdChar then some (String.mk cap) else none

/-- First successful capture among the remainders, in priority order. -/
def firstCapture : List (List Char) → Option String
  | [] => none
  | r :: rest =>
    match ytCapture r with
    | some s => some s
    | none => firstCapture rest

/-- Leftmost-match scan: try the matcher at every start position. -/
def scanMatch (f : List Char → Option String) : List Char → Option String
  | [] => f []
  | c :: rest =>
    match f (c :: rest) with
    | some s => some s
    | none => scanMatch f rest

/-- The shorts regex `youtube\.com\/shorts\/([^"&?\/\s]{11})` at one position. -/
def ytShortsAt (cs : List Char) : Option String :=
  firstCapture (litRem "youtube.com/shorts/".toList cs)

/-- The standard regex at one position. -/
def ytStdAt (cs : List Char) : Option String :=
  firstCapture (ytStdRem cs)

/-- `extractYoutubeId`: try the standard-link regex, then the shorts regex.
Nothing in the body can throw, so the source's `try/catch` is inert. -/
def extractYoutubeId (url : JsValue) : Option String :=
  if !isValidString url then none
  else
    let cs := (asStr url).toList
    match scanMatch ytStdAt cs with
    | some s => some s
    | none => scanMatch ytShortsAt cs

/-! ## blueskyNormalizer: domain extraction and external links -/

/-- The suffix after the first occurrence of `pat`. -/
def afterSub (pat : List Char) : List Char → Option (List Char)
  | [] => if pat.isEmpty then some [] else none
  | c :: rest =>
    if pat.isPrefixOf (c :: rest) then some ((c :: rest).drop pat.length)
    else afterSub pat rest

/-- `new URL(s).hostname`, modelled for hierarchical (`scheme://…`) URLs:
the authority runs to the first `/`, `?` or `#`; userinfo before the last
`@` and a `:port` suffix are stripped; the hostname is lowercased. URLs
without `://` or with an empty hostname throw, as `new URL` does on the
inputs the claims exercise; IPv6/percent/IDN forms are outside the model. -/
def urlHostname (s : String) : Except Unit String :=
  match afterSub "://".toList s.toList with
  | none => .error ()
  | some rest =>
    let authority := rest.takeWhile (fun c => !(c == '/' || c == '?' || c == '#'))
    let hostPort := (authority.reverse.takeWhile (fun c => !(c == '@'))).reverse
    let host := hostPort.takeWhile (fun c => !(c == ':'))
    if host.isEmpty then .error ()
    else .ok (String.mk (host.map Char.toLower))

/-- `extractDomain`: the hostname without a leading `www.`; `null` (here
`none`) when URL parsing fails. -/
def extractDomain (uri : JsValue) : Option String :=
  if !isValidString uri then none
  else
    match urlHostname (asStr uri) with
    | .error _ => none
    | .ok domain =>
      let cs := domain.data
      some (String.mk (if "www.".data.isPrefixOf cs then cs.drop 4 else cs))

/-- An `Option String` (a JS string-or-null) as a `JsValue`. -/
def optStrToJs : Option String → JsValue
  | some s => .str s
  | none => .null

/-- A normalized external link. -/
structure ExternalLink where
  uri : JsValue
  url : JsValue
  title : JsValue
  description : JsValue
  thumb : JsValue
  domain : JsValue
  youtubeId : Option String
deriving Repr

/-- `normalizeExternalLink`. -/
def normalizeExternalLink (embed : JsValue) : Option ExternalLink :=
  if !isValidObject embed then none
  else if (jsGetOpt embed "$type" == JsValue.str "app.bsky.embed.external") &&
      isValidObject (jsGetOpt embed "external") then
    let ext := jsGetOpt embed "external"
    let uri := jsGetOpt ext "uri"
    if !isValidString uri then none
    else
      some { uri := uri
             url := uri
             title := jsOr (jsGetOpt ext "title") (jsOr (optStrToJs (extractDomain uri)) uri)
             description := jsOr (jsGetOpt ext "description") (.str "")
             thumb := jsGetOpt ext "thumb"
             domain := optStrToJs (extractDomain uri)
             youtubeId := extractYoutubeId uri }
  else none

/-! ## blueskyNormalizer: quotes and the full post normalizer -/

/-- `isQuote post embed`: the resolved embed is a record or
record-with-media embed. -/
def isQuote (post : JsValue) (embed : JsValue) : Bool :=
  if !isValidObject post then false
  else
    let embedData := jsOr embed (getPostEmbed post)
    if !isValidObject embedData then false
    else
      (jsGetOpt embedData "$type" == JsValue.str "app.bsky.embed.record") ||
        (jsGetOpt embedData "$type" == JsValue.str "app.bsky.embed.recordWithMedia")

/-- `getQuotedPost post embed`. -/
def getQuotedPost (post : JsValue) (embed : JsValue) : JsValue :=
  if !isValidObject post then .null
  else
    let embedData := jsOr embed (getPostEmbed post)
    if !isValidObject embedData then .null
    else if jsGetOpt embedData "$type" == JsValue.str "app.bsky.embed.record" then
      jsGetOpt embedData "record"
    else if jsGetOpt embedData "$type" == JsValue.str "app.bsky.embed.recordWithMedia" then
      jsGetOpt (jsGetOpt embedData "record") "record"
    else .null

/-- The shallowly normalized quoted post built inline by `normalizePost`.
`images`/`externalLink` are `Option`al because the source adds those two
fields only when the quoted post's embed is a valid object. -/
structure QuotedPost where
  uri : JsValue
  cid : JsValue
  text : JsValue
  facets : JsValue
  author : Author
  indexedAt : JsValue
  embed : JsValue
  images : Option (List NImage)
  externalLink : Option (Option ExternalLink)
deriving Repr

/-- A normalized post. -/
structure NPost where
  uri : JsValue
  cid : JsValue
  author : Author
  text : JsValue
  facets : JsValue
  embed : JsValue
  indexedAt : JsValue
  likeCount : JsValue
  repostCount : JsValue
  replyCount : JsValue
  isRepost : Bool
  repostedBy : Option Author
  isQuote : Bool
  quotedPost : Option QuotedPost
  images : List NImage
  externalLink : Option ExternalLink
  youtubeId : Option String
  labels : JsValue
deriving Repr

/-- `DEFAULT_POST`. -/
def DEFAULT_POST : NPost where
  uri := .str ""
  cid := .str ""
  author := DEFAULT_AUTHOR
  text := .str ""
  facets := .arr []
  embed := .null
  indexedAt := .str ""
  likeCount := .num 0
  repostCount := .num 0
  replyCount := .num 0
  isRepost := false
  repostedBy := none
  isQuote := false
  quotedPost := none
  images := []
  externalLink := none
  youtubeId := none
  labels := .arr []

/-- `post.labels?.map((label) => label.val)`: `undefined` when `labels` is
nullish, a `TypeError` when it is not an array, and a `TypeError` from
`label.val` when an element is nullish. -/
def jsMapVal (labels : JsValue) : Except Unit JsValue :=
  match labels with
  | .undefined => .ok .undefined
  | .null => .ok .undefined
  | .arr xs => do
    let vals ← xs.mapM (fun l => jsGet l "val")
    pure (.arr vals)
  | _ => .error ()

/-- `externalLink?.youtubeId || null` (an empty capture cannot occur, but
the `||` collapse of an empty string is modelled anyway). -/
def topYoutubeId : Option ExternalLink → Option String
  | none => none
  | some el =>
    match el.youtubeId with
    | none => none
    | some s => if s = "" then none else some s

/-- The `try` body of `normalizePost`. -/
def normalizePostBody (postInput : JsValue) : Except Unit NPost := do
  let isReposted := isRepost postInput
  let repostedBy : Option Author :=
    if isReposted then some (normalizeAuthor (jsGetOpt (jsGetOpt postInput "reason") "by"))
    else none
  let post := getOriginalPost postInput
  if !isValidObject post then
    pure DEFAULT_POST
  else
    let uri := getPostUri post
    let cid := getPostCid post
    let indexedAt := getPostIndexedAt post
    let text := getPostText post
    let facets := getPostFacets post
    let author := getAuthorFromPost post
    let likeCount := jsOr (jsGetOpt post "likeCount") (.num 0)
    let repostCount := jsOr (jsGetOpt post "repostCount") (.num 0)
    let replyCount := jsOr (jsGetOpt post "replyCount") (.num 0)
    let embed := getPostEmbed post
    let isQuoted := isQuote post embed
    let images := normalizeImages embed
    let externalLink := normalizeExternalLink embed
    let quotedPost : Option QuotedPost :=
      if isQuoted then
        let rawQuotedPost := getQuotedPost post embed
        if isValidObject rawQuotedPost then
          let qEmbed := getPostEmbed rawQuotedPost
          some { uri := getPostUri rawQuotedPost
                 cid := getPostCid rawQuotedPost
                 text := getPostText rawQuotedPost
                 facets := getPostFacets rawQuotedPost
                 author := getAuthorFromPost rawQuotedPost
                 indexedAt := getPostIndexedAt rawQuotedPost
                 embed := qEmbed
                 images := if isValidObject qEmbed then some (normalizeImages qEmbed) else none
                 externalLink :=
                   if isValidObject qEmbed then some (normalizeExternalLink qEmbed) else none }
        else none
      else none
    let youtubeId := topYoutubeId externalLink
    let labelsMapped ← jsMapVal (jsGetOpt post "labels")
    let labels := jsOr labelsMapped (.arr [])
    pure { uri := uri, cid := cid, author := author, text := text, facets := facets
           embed := embed, indexedAt := indexedAt, likeCount := likeCount
           repostCount := repostCount, replyCount := replyCount
           isRepost := isReposted, repostedBy := repostedBy
           isQuote := isQuoted, quotedPost := quotedPost, images := images
           externalLink := externalLink, youtubeId := youtubeId, labels := labels }

/-- `normalizePost`: guard, body, and a `catch` yielding `DEFAULT_POST`. -/
def normalizePost (postInput : JsValue) : NPost :=
  if !isValidObject postInput then DEFAULT_POST
  else
    match normalizePostBody postInput with
    | .ok p => p
    | .error _ => DEFAULT_POST

/-! ## errors.js: the error hierarchy, as far as the retry logic inspects it -/

/-- The concrete class of a thrown error. `plain` is a bare `Error` (or any
object outside the app's hierarchy). -/
inductive ErrClass where
  | plain
  | appError
  | networkError
  | offlineError
  | timeoutError
  | rateLimitError
  | serverError
  | apiError
  | authError
  | validationError
deriving Repr, DecidableEq

/-- `instanceof AppError`. -/
def isAppErrorCls : ErrClass → Bool
  | .plain => false
  | _ => true

/-- `instanceof NetworkError`. -/
def isNetworkErrorCls : ErrClass → Bool
  | .networkError | .offlineError | .timeoutError | .rateLimitError | .serverError => true
  | _ => false

/-- `instanceof TimeoutError`. -/
def isTimeoutErrorCls : ErrClass → Bool
  | .timeoutError => true
  | _ => false

/-- `instanceof RateLimitError`. -/
def isRateLimitErrorCls : ErrClass → Bool
  | .rateLimitError => true
  | _ => false

/-- A thrown error restricted to the data the retry logic reads: its class,
`message`, the `retryable` flag behind `isRetryable()`, the (absent unless
explicitly set) `status` property, and the rate-limit `retryAfter` hint in
seconds. -/
structure JsError where
  cls : ErrClass
  message : String := ""
  retryable : Bool := true
  status : Option ℚ := none
  retryAfter : Option ℚ := none
deriving Repr, DecidableEq

/-- Does `pat` occur as a contiguous run inside the list? -/
def hasInfixRun (pat : List Char) : List Char → Bool
  | [] => pat.isEmpty
  | c :: rest => pat.isPrefixOf (c :: rest) || hasInfixRun pat rest

/-- `message.includes(pat)`. -/
def jsIncludes (message pat : String) : Bool :=
  hasInfixRun pat.toList message.toList

/-! ## apiUtils.js / retryUtils: backoff and retry -/

/-- Options of `calculateBackoff` (defaults as in the source). -/
structure BackoffOptions where
  baseDelay : ℚ := 1000
  maxDelay : ℚ := 30000
  jitter : Bool := true
deriving Repr, DecidableEq

/-- `calculateBackoff`: exponential delay capped at `maxDelay`; with jitter
on, the capped delay is scaled by `0.7 + rand * 0.6` (where `rand` models
the `Math.random()` draw in `[0,1)`) and floored. -/
def calculateBackoff (attempt : Nat) (opts : BackoffOptions) (rand : ℚ) : ℚ :=
  let exponentialDelay : ℚ := opts.baseDelay * 2 ^ attempt
  let cappedDelay : ℚ := min exponentialDelay opts.maxDelay
  if opts.jitter then
    let jitterFactor : ℚ := 7/10 + rand * (6/10)
    ((⌊cappedDelay * jitterFactor⌋ : ℤ) : ℚ)
  else cappedDelay

/-- `defaultShouldRetry`. `online` models `navigator.onLine`. -/
def defaultShouldRetry (online : Bool) (e : JsError) (attempt : Nat) : Bool :=
  if isAppErrorCls e.cls && !e.retryable then false
  else if isNetworkErrorCls e.cls then
    if jsIncludes e.message "offline" || !online then false
    else if isTimeoutErrorCls e.cls && attempt ≥ 2 then false
    else true
  else if (e.status == some 401 || e.status == some 403) ||
      (jsIncludes e.message "unauthorized" || jsIncludes e.message "forbidden") then false
  else if (match e.status with
           | some s => 500 ≤ s && s < 600
           | none => false) then true
  else attempt == 0

/-- Options of `withRetry` (defaults as in the source). -/
structure RetryOptions where
  maxRetries : Nat := 3
  baseDelay : ℚ := 1000
  maxDelay : ℚ := 30000
  jitter : Bool := true
deriving Repr, DecidableEq

/-- Truthiness of the numeric `retryAfter` property. -/
def truthyRetryAfter : Option ℚ → Bool
  | none => false
  | some q => q != 0

/-- The retry loop of `withRetry`, with the cooperative effects made
explicit: `outcomes n` is what the wrapped function does on its `n`-th
invocation, `rands n` the `Math.random()` draw of attempt `n`. The result
pairs the sequence of delays slept (in order) with the final outcome.
`fuel` counts the remaining retries; the loop bound `attempt < maxRetries`
of the source is exactly `fuel > 0`, since `fuel` starts at `maxRetries`. -/
def withRetryGo {α : Type} (outcomes : Nat → Except JsError α) (opts : RetryOptions)
    (shouldRetry : JsError → Nat → Bool) (rands : Nat → ℚ) :
    Nat → Nat → List ℚ → List ℚ × Except JsError α
  | attempt, fuel, delays =>
    match outcomes attempt with
    | .ok a => (delays.reverse, .ok a)
    | .error e =>
      match fuel with
      | 0 => (delays.reverse, .error e)
      | fuel' + 1 =>
        if shouldRetry e attempt then
          let delay : ℚ :=
            calculateBackoff attempt
              { baseDelay := opts.baseDelay, maxDelay := opts.maxDelay, jitter := opts.jitter }
              (rands attempt)
          let slept : ℚ :=
            if isRateLimitErrorCls e.cls && truthyRetryAfter e.retryAfter then
              let rateLimitDelay : ℚ := (e.retryAfter.getD 0) * 1000
              if 0 < rateLimitDelay ∧ rateLimitDelay < 300000 then rateLimitDelay else delay
            else delay
          withRetryGo outcomes opts shouldRetry rands (attempt + 1) fuel' (slept :: delays)
        else (delays.reverse, .error e)

/-- `withRetry`. -/
def withRetry {α : Type} (outcomes : Nat → Except JsError α) (opts : RetryOptions)
    (shouldRetry : JsError → Nat → Bool) (rands : Nat → ℚ) : List ℚ × Except JsError α :=
  withRetryGo outcomes opts shouldRetry rands 0 opts.maxRetries []

/-! ## useFeed: the fetch/cache/retry/pagination controller

The hook's `fetchFeed` is embedded as a state-transition function. A feed
item is restricted to the fields the hook itself inspects: the
deduplication keys `p.id` and `p.post?.id` it actually reads, and the
`uri`/`cid` identity the specification talks about. A `none` string field
is an absent (`undefined`) property. The network (including the chosen
endpoint and the cursor threading) is abstracted as the `outcomes`
sequence: `outcomes n` is the settled result of the `n`-th attempt's API
call, and `now` is the clock (timestamps only matter relative to each
other). Abort/cancellation paths are not exercised by the claims. -/

/-- A processed feed item, restricted to identity fields. -/
structure FeedPost where
  id : Option String := none
  postId : Option String := none
  uri : Option String := none
  cid : Option String := none
deriving Repr, DecidableEq

/-- `p.id || p.post?.id` — the key the dedup filter uses. It is the value
of that JS expression: `none` models both property-absence and a falsy
empty string collapsing to the right operand. -/
def dedupKey (p : FeedPost) : Option String :=
  match p.id with
  | some s => if s = "" then p.postId else some s
  | none => p.postId

/-- A page as returned by the API call and post-processed (normalized)
before state updates. -/
structure FeedPage where
  feed : List FeedPost
  cursor : Option String := none
deriving Repr, DecidableEq

/-- `!!cursor`. -/
def cursorTruthy : Option String → Bool
  | none => false
  | some s => s != ""

/-- One `staticCache` entry. -/
structure CacheEntry where
  timestamp : ℤ
  data : List FeedPost
  cursor : Option String
deriving Repr, DecidableEq

/-- The hook's configuration, with the cache key already canonicalized
from `feedType`/`params`. -/
structure FeedConfig where
  cacheKey : String
  cacheTime : ℤ := 60000
  retryCount : Nat := 3
deriving Repr, DecidableEq

/-- The hook state touched by `fetchFeed`. -/
structure FeedState where
  posts : List FeedPost
  cursor : Option String
  loading : Bool
  error : Option JsError
  hasMore : Bool
  cache : List (String × CacheEntry)
  retryCount : Nat
deriving Repr, DecidableEq

/-- Lookup in the cache object. -/
def cacheLookup (cache : List (String × CacheEntry)) (key : String) : Option CacheEntry :=
  match cache with
  | [] => none
  | (k, e) :: rest => if k = key then some e else cacheLookup rest key

/-- Overwrite/insert a cache entry. -/
def cacheStore (cache : List (String × CacheEntry)) (key : String) (e : CacheEntry) :
    List (String × CacheEntry) :=
  match cache with
  | [] => [(key, e)]
  | (k, e0) :: rest => if k = key then (k, e) :: rest else (k, e0) :: cacheStore rest key e

/-- The body of `fetchFeed(loadMore, forceRefresh)`: cache check, state
reset, one network attempt, and on failure either a scheduled re-entry
(modelled as recursion with `fuel`) or the error path with its cached-data
fallback. The invocation's attempt index is the current `retryCount`. -/
def fetchFeedGo (cfg : FeedConfig) (now : ℤ) (outcomes : Nat → Except JsError FeedPage)
    (loadMore forceRefresh : Bool) : Nat → FeedState → FeedState
  | fuel, st =>
    let hit : Option CacheEntry :=
      if !loadMore && !forceRefresh then
        match cacheLookup st.cache cfg.cacheKey with
        | some entry => if now - entry.timestamp < cfg.cacheTime then some entry else none
        | none => none
      else none
    match hit with
    | some entry =>
      { st with posts := entry.data, cursor := entry.cursor,
                hasMore := cursorTruthy entry.cursor, loading := false, error := none }
    | none =>
      let st1 := { st with loading := true }
      let st2 := if !loadMore && !forceRefresh then { st1 with posts := [] } else st1
      match outcomes st2.retryCount with
      | .ok page =>
        let processedFeed := page.feed
        let st3 :=
          if loadMore then
            let existingIds := st2.posts.map dedupKey
            let uniqueNewPosts := processedFeed.filter (fun p => !existingIds.contains (dedupKey p))
            { st2 with posts := st2.posts ++ uniqueNewPosts }
          else { st2 with posts := processedFeed }
        let st4 := { st3 with cursor := page.cursor, hasMore := cursorTruthy page.cursor }
        let newEntry : CacheEntry := { timestamp := now, data := processedFeed, cursor := page.cursor }
        let st5 :=
          if !loadMore then { st4 with cache := cacheStore st4.cache cfg.cacheKey newEntry }
          else st4
        { st5 with retryCount := 0, loading := false }
      | .error e =>
        if st2.retryCount < cfg.retryCount then
          match fuel with
          | 0 => { st2 with loading := false }
          | fuel' + 1 =>
            fetchFeedGo cfg now outcomes loadMore forceRefresh fuel'
              { st2 with retryCount := st2.retryCount + 1, loading := false }
        else
          let stE := { st2 with error := some e }
          let stF :=
            if !loadMore then
              match cacheLookup stE.cache cfg.cacheKey with
              | some entry => if entry.data.length > 0 then
                  { stE with posts := entry.data, cursor := entry.cursor }
                else stE
              | none => stE
            else stE
          { stF with loading := false }

/-- `fetchFeed`: enough fuel for the retry counter to reach its bound. -/
def fetchFeed (cfg : FeedConfig) (now : ℤ) (outcomes : Nat → Except JsError FeedPage)
    (loadMore forceRefresh : Bool) (st : FeedState) : FeedState :=
  fetchFeedGo cfg now outcomes loadMore forceRefresh cfg.retryCount st

/-- `loadMore()`: guarded, then `fetchFeed(true)`. -/
def loadMoreOp (cfg : FeedConfig) (now : ℤ) (outcomes : Nat → Except JsError FeedPage)
    (st : FeedState) : FeedState :=
  if !st.loading && st.hasMore && st.error == none then
    fetchFeed cfg now outcomes true false st
  else st

/-- `refresh()`: clear the error and the retry counter, then
`fetchFeed(false, true)`. -/
def refreshOp (cfg : FeedConfig) (now : ℤ) (outcomes : Nat → Except JsError FeedPage)
    (st : FeedState) : FeedState :=
  fetchFeed cfg now outcomes false true { st with error := none, retryCount := 0 }

/-! ## useRichText: UTF-8 byte to UTF-16 code unit converters

A JavaScript string is a sequence of UTF-16 code units; the model is
`List Nat` with each entry a code unit (`< 2^16`). The converters encode
each code unit on its own through `TextEncoder` (`encoder.encode(text[i])`),
under which a member of a surrogate pair becomes the three-byte
replacement character — while the whole-string encoding
(`encoder.encode(text)`) fuses a high+low pair into one four-byte code
point. Both behaviours are modelled. -/

/-- UTF-8 length of one code unit encoded in isolation: lone surrogates
encode as U+FFFD, three bytes. -/
def utf16UnitUtf8Len (u : Nat) : Nat :=
  if u < 0x80 then 1 else if u < 0x800 then 2 else 3

def isHighSurrogate (u : Nat) : Bool := 0xD800 ≤ u && u ≤ 0xDBFF

def isLowSurrogate (u : Nat) : Bool := 0xDC00 ≤ u && u ≤ 0xDFFF

/-- `encoder.encode(text).length`: the true UTF-8 byte length, pair-aware. -/
def utf8ByteLen : List Nat → Nat
  | [] => 0
  | [u] => if isHighSurrogate u then 3 else utf16UnitUtf8Len u
  | u :: v :: rest =>
    if isHighSurrogate u then
      if isLowSurrogate v then 4 + utf8ByteLen rest else 3 + utf8ByteLen (v :: rest)
    else utf16UnitUtf8Len u + utf8ByteLen (v :: rest)

/-- The `indices` table of `createUtf16ToByteConverter` (equally, the
sorted key list of the map in `createByteToUtf16Converter`): entry `i` is
the cumulative per-unit byte length of the first `i` code units. -/
def byteIndexTable : List Nat → List Nat
  | [] => [0]
  | u :: rest => 0 :: (byteIndexTable rest).map (· + utf16UnitUtf8Len u)

/-- The converter returned by `createUtf16ToByteConverter`: table lookup,
throwing when the index exceeds the string length. -/
def byteOffsetOf (txt : List Nat) (utf16Index : Nat) : Except Unit Nat :=
  if utf16Index > txt.length then .error ()
  else .ok ((byteIndexTable txt).getD utf16Index 0)

/-- The converter returned by `createByteToUtf16Converter`: bounds-checked
against the true byte length, then the entry of the last recorded byte
position not exceeding `byteIndex` (the source walks the sorted keys and
keeps the last one `≤ byteIndex`, which is the length of the
`takeWhile (· ≤ byteIndex)` prefix minus one). -/
def utf16OffsetOf (txt : List Nat) (byteIndex : ℤ) : Except Unit Nat :=
  if byteIndex < 0 ∨ byteIndex > (utf8ByteLen txt : ℤ) then .error ()
  else .ok (((byteIndexTable txt).takeWhile (fun (k : Nat) => (k : ℤ) ≤ byteIndex)).length - 1)

/-- The byte offsets that begin or end a whole code point of the true
UTF-8 encoding — the valid byte boundaries of the text. -/
def utf8Boundaries : List Nat → List Nat
  | [] => [0]
  | [u] => if isHighSurrogate u then [0, 3] else [0, utf16UnitUtf8Len u]
  | u :: v :: rest =>
    if isHighSurrogate u then
      if isLowSurrogate v then 0 :: (utf8Boundaries rest).map (· + 4)
      else 0 :: (utf8Boundaries (v :: rest)).map (· + 3)
    else 0 :: (utf8Boundaries (v :: rest)).map (· + utf16UnitUtf8Len u)

/-- The largest valid byte boundary not exceeding `b`. -/
def nearestLowerBoundary (txt : List Nat) (b : Nat) : Nat :=
  (utf8Boundaries txt).foldl (fun acc k => if k ≤ b then k else acc) 0

/-! ## useRichText: the segmenter -/

/-- One entry of a facet's `features` array, keyed by its `$type` tag.
`other` is any unrecognized tag. -/
inductive Feature where
  | mention (did : JsValue)
  | link (uri : JsValue)
  | tag (t : JsValue)
  | other
deriving Repr

/-- A facet's `index`, when present with numeric `byteStart`/`byteEnd`. -/
structure FacetIndex where
  byteStart : ℤ
  byteEnd : ℤ
deriving Repr, DecidableEq

/-- A raw facet as the segmenter's shape checks classify it: `index` is
`none` when the property is missing or its bounds are not numbers,
`features` is `none` when missing or not an array. -/
structure Facet where
  index : Option FacetIndex
  features : Option (List Feature)
deriving Repr

/-- A segment of the segmenter's output. `plain` carries only its text,
exactly as the `{type:"text"}` literals of the source do; the annotated
kinds carry UTF-16 `start`/`stop` offsets, the sliced text, and the
feature payload. -/
inductive Segment where
  | plain (text : List Nat)
  | mention (start stop : Nat) (text : List Nat) (did : JsValue)
  | link (start stop : Nat) (text : List Nat) (url : JsValue)
  | hashtag (start stop : Nat) (text : List Nat) (tag : JsValue)
deriving Repr

def Segment.start : Segment → Nat
  | .plain _ => 0
  | .mention s _ _ _ => s
  | .link s _ _ _ => s
  | .hashtag s _ _ _ => s

def Segment.stop : Segment → Nat
  | .plain t => t.length
  | .mention _ e _ _ => e
  | .link _ e _ _ => e
  | .hashtag _ e _ _ => e

def Segment.text : Segment → List Nat
  | .plain t => t
  | .mention _ _ t _ => t
  | .link _ _ t _ => t
  | .hashtag _ _ t _ => t

def Segment.isPlain : Segment → Bool
  | .plain _ => true
  | _ => false

/-- `text.substring(s, e)`: clamp both indices to the length, swap when
reversed, slice. -/
def jsSubstring (txt : List Nat) (s e : Nat) : List Nat :=
  let len := txt.length
  let s' := min s len
  let e' := min e len
  let lo := min s' e'
  let hi := max s' e'
  (txt.drop lo).take (hi - lo)

/-- The segment built for one recognized feature (`none` for an
unrecognized `$type`). -/
def featureSegment (f : Feature) (s e : Nat) (ftext : List Nat) : Option Segment :=
  match f with
  | .mention did => some (.mention s e ftext did)
  | .link uri => some (.link s e ftext uri)
  | .tag t => some (.hashtag s e ftext t)
  | .other => none

/-- The candidate segments one facet contributes: shape checks, byte-range
conversion (a throwing conversion skips the facet), then one candidate per
recognized feature. -/
def facetCandidates (txt : List Nat) (facet : Facet) : List Segment :=
  match facet.index, facet.features with
  | some idx, some feats =>
    match utf16OffsetOf txt idx.byteStart, utf16OffsetOf txt idx.byteEnd with
    | .ok s, .ok e => feats.filterMap (fun f => featureSegment f s e (jsSubstring txt s e))
    | _, _ => []
  | _, _ => []

/-- Stable insertion by `start` (ties keep earlier elements first), the
observable behaviour of `segments.sort((a, b) => a.start - b.start)`. -/
def insertByStart (s : Segment) : List Segment → List Segment
  | [] => [s]
  | t :: rest => if s.start ≤ t.start then s :: t :: rest else t :: insertByStart s rest

def sortByStart (l : List Segment) : List Segment := l.foldr insertByStart []

/-- The four-way interval test of the overlap filter. -/
def overlapB (c v : Segment) : Bool :=
  (v.start ≤ c.start && c.start < v.stop) ||
    ((v.start < c.stop && c.stop ≤ v.stop) ||
      (c.start ≤ v.start && v.stop ≤ c.stop))

/-- The first-wins filter: keep a candidate only when it overlaps no
already-kept segment. -/
def acceptSegments : List Segment → List Segment → List Segment
  | accepted, [] => accepted
  | accepted, c :: rest =>
    if accepted.any (fun v => overlapB c v) then acceptSegments accepted rest
    else acceptSegments (accepted ++ [c]) rest

/-- The result walk: a plain gap before each accepted segment, the segment
itself, and a trailing plain segment for the remainder. -/
def fillGaps (txt : List Nat) : Nat → List Segment → List Segment
  | lastIndex, [] =>
    if lastIndex < txt.length then [.plain (jsSubstring txt lastIndex txt.length)] else []
  | lastIndex, s :: rest =>
    (if s.start > lastIndex then [Segment.plain (jsSubstring txt lastIndex s.start)] else []) ++
      s :: fillGaps txt s.stop rest

/-- `useRichTextSegments` (the memoized computation): empty text gives no
segments, an empty facet list one whole-text segment, otherwise candidates
are built, sorted, filtered first-wins and gap-filled. Nothing in the
model's pipeline throws (conversion failures are handled per-facet), so
the outer `catch`'s whole-text fallback is unreachable here. -/
def richTextSegments (txt : List Nat) (facets : List Facet) : List Segment :=
  if txt.isEmpty then []
  else if facets.isEmpty then [.plain txt]
  else fillGaps txt 0 (acceptSegments [] (sortByStart (facets.flatMap (facetCandidates txt))))

/-- Ordered-gapless-cover check, the conjunction of the output invariants:
walking from `pos`, every segment's text is the slice of `txt` at the
current position (plain gap segments being non-empty), annotated segments
record exactly their position, and the walk ends at the end of the text.
Concatenating the texts of a cover from 0 therefore rebuilds `txt`. -/
def coverOk (txt : List Nat) : Nat → List Segment → Bool
  | pos, [] => pos == txt.length
  | pos, s :: rest =>
    (if s.isPlain then !(Segment.text s).isEmpty
     else s.start == pos && s.stop == pos + (Segment.text s).length) &&
      (decide (Segment.text s = (txt.drop pos).take (Segment.text s).length) &&
        coverOk txt (pos + (Segment.text s).length) rest)

/-- Concatenation of the segments' texts. -/
def segConcat (l : List Segment) : List Nat := l.flatMap Segment.text

/-- A facet the specification calls well-formed, relative to a text: shape
intact, numeric bounds with `byteStart < byteEnd`, both within the text's
byte length. -/
def facetWellFormed (txt : List Nat) (f : Facet) : Prop :=
  ∃ idx feats, f.index = some idx ∧ f.features = some feats ∧
    0 ≤ idx.byteStart ∧ idx.byteStart < idx.byteEnd ∧ idx.byteEnd ≤ (utf8ByteLen txt : ℤ)

/-- The converted UTF-16 ranges of two facets do not intersect (vacuous
when a conversion fails or a shape check does). -/
def convertedDisjoint (txt : List Nat) (f g : Facet) : Prop :=
  ∀ fi gi fs fe gs ge, f.index = some fi → g.index = some gi →
    utf16OffsetOf txt fi.byteStart = .ok fs → utf16OffsetOf txt fi.byteEnd = .ok fe →
    utf16OffsetOf txt gi.byteStart = .ok gs → utf16OffsetOf txt gi.byteEnd = .ok ge →
    fe ≤ gs ∨ ge ≤ fs

/-- The concrete input of the YouTube-embed claims: an external-link embed
pointing at a canonical watch URL. -/
def ytRawPost : JsValue :=
  .obj [("embed", .obj [("$type", .str "app.bsky.embed.external"),
    ("external", .obj [("uri", .str "https://www.youtube.com/watch?v=dQw4w9WgXcQ")])])]

/-- The external link `normalizePost` produces for `ytRawPost`. -/
def ytExternal : ExternalLink where
  uri := .str "https://www.youtube.com/watch?v=dQw4w9WgXcQ"
  url := .str "https://www.youtube.com/watch?v=dQw4w9WgXcQ"
  title := .str "youtube.com"
  description := .str ""
  thumb := .undefined
  domain := .str "youtube.com"
  youtubeId := some "dQw4w9WgXcQ"

/-- A well-formed annotated candidate segment relative to a text: not a
plain segment, with an ordered in-bounds range whose text is the slice of
the text at that range. -/
def candOk (txt : List Nat) (c : Segment) : Prop :=
  c.isPlain = false ∧ c.start ≤ c.stop ∧ c.stop ≤ txt.length ∧
    c.text = (txt.drop c.start).take (c.stop - c.start)

/-! ## Concrete instances used by individual claims -/

/-- Configuration with an abstract canonical cache key. -/
def feedCfg : FeedConfig := { cacheKey := "timeline:" }

/-- A normalized post (no `id` property), uri `…/1`. -/
def c5post1 : FeedPost := { uri := some "at://alice/post/1", cid := some "cid1" }

/-- A normalized post (no `id` property), uri `…/2`. -/
def c5post2 : FeedPost := { uri := some "at://alice/post/2", cid := some "cid2" }

/-- Held state: one page of normalized posts, a cursor, idle. -/
def c5state : FeedState :=
  { posts := [c5post1], cursor := some "cur", loading := false, error := none,
    hasMore := true, cache := [], retryCount := 0 }

/-- A raw (non-normalized) item carrying an `id`, uri `…/9`. -/
def c5rawA : FeedPost := { id := some "raw1", uri := some "at://alice/post/9" }

/-- Another raw item with a different `id` but the same uri `…/9`. -/
def c5rawB : FeedPost := { id := some "raw2", uri := some "at://alice/post/9" }

/-- Held state whose single item is `c5rawA`. -/
def c5stateRaw : FeedState :=
  { posts := [c5rawA], cursor := some "cur", loading := false, error := none,
    hasMore := true, cache := [], retryCount := 0 }

/-- A server error (5xx), as thrown by the feed fetch. -/
def srvErr : JsError := { cls := .serverError }

/-- Displayed state after pagination: two posts on screen, while the cache
entry for the key still holds only the first page. -/
def c6state : FeedState :=
  { posts := [c5post1, c5post2], cursor := none, loading := false, error := none,
    hasMore := true,
    cache := [("timeline:", { timestamp := 0, data := [c5post1], cursor := none })],
    retryCount := 0 }

/-- State with posts on screen and an empty cache. -/
def c10state : FeedState :=
  { posts := [c5post1, c5post2], cursor := none, loading := false, error := none,
    hasMore := true, cache := [], retryCount := 0 }

/-- The network outcome sequence of the C8 scenario: three server errors,
then success. -/
def c8outcomes : Nat → Except JsError Unit :=
  fun n => if n < 3 then .error srvErr else .ok ()

/-- A rate-limit error carrying a 600-second (10-minute) retry-after hint. -/
def rlErr600 : JsError := { cls := .rateLimitError, retryAfter := some 600 }

/-- One rate-limited failure, then success. -/
def c9outcomes : Nat → Except JsError Unit :=
  fun n => if n = 0 then .error rlErr600 else .ok ()

/-!
# Theorems settling the claims
-/

/-- C1: `normalizePost(null)` and `normalizePost({})` both return the
fully-defaulted post, and for every input the normalizer is total, mapping
any internal failure of its body to the fully-defaulted post instead of
propagating. -/
theorem normalizePost_total_and_defaults :
    normalizePost JsValue.null = DEFAULT_POST ∧
    normalizePost (JsValue.obj []) = DEFAULT_POST ∧
    ∀ v e, normalizePostBody v = .error e → normalizePost v = DEFAULT_POST := by
  refine ⟨rfl, rfl, ?_⟩
  intro v e h
  simp only [normalizePost, h]
  split <;> rfl

/-- Witness for C1: a post whose `labels` is a non-array object makes the
body throw, and the normalizer yields the fully-defaulted post there. -/
theorem normalizePost_total_and_defaults_witness :
    normalizePostBody (JsValue.obj [("labels", JsValue.obj [])]) = .error () ∧
    normalizePost (JsValue.obj [("labels", JsValue.obj [])]) = DEFAULT_POST :=
  ⟨rfl, normalizePost_total_and_defaults.2.2 (JsValue.obj [("labels", JsValue.obj [])]) () rfl⟩

/-- C7, counterexample: on the canonical YouTube watch-URL embed the
normalizer resolves `youtubeId`, but `externalLink` is NOT null — the
video is also exposed as a generic external link. -/
theorem youtube_externalLink_not_null :
    (normalizePost ytRawPost).youtubeId = some "dQw4w9WgXcQ" ∧
    (normalizePost ytRawPost).externalLink ≠ none := by
  refine ⟨by rfl, ?_⟩
  have hx : (normalizePost ytRawPost).externalLink = some ytExternal := by rfl
  rw [hx]
  exact Option.some_ne_none _

/-- C7, amended: on the canonical YouTube watch-URL embed, `youtubeId`
resolves to `"dQw4w9WgXcQ"` at the top level and `externalLink` is the
normalized external-link object, which carries the same `youtubeId`. -/
theorem youtube_id_and_externalLink :
    (normalizePost ytRawPost).youtubeId = some "dQw4w9WgXcQ" ∧
    (normalizePost ytRawPost).externalLink = some ytExternal ∧
    ytExternal.youtubeId = some "dQw4w9WgXcQ" :=
  ⟨by rfl, by rfl, by rfl⟩

/-- C4: on the astral-character text `"😀"` (code units `D83D DE00`, true
UTF-8 length 4) the byte-to-UTF-16 converter accepts byte offset 4 without
throwing, but composing back through the UTF-16-to-byte converter yields
3 — the per-code-unit table counts a surrogate pair as 3+3 bytes — while
the nearest-lower valid byte boundary of the true encoding is 4 itself. -/
theorem converter_astral_divergence :
    utf16OffsetOf [0xD83D, 0xDE00] 4 = .ok 1 ∧
    byteOffsetOf [0xD83D, 0xDE00] 1 = .ok 3 ∧
    nearestLowerBoundary [0xD83D, 0xDE00] 4 = 4 ∧
    (3 : Nat) ≠ 4 := by
  refine ⟨rfl, rfl, rfl, by decide⟩

/-- C5: the `loadMore` deduplication key is `p.id || p.post?.id`, not the
uri/cid identity. On normalized posts (which never carry an `id`) every
incoming item collides with the all-`undefined` key set, so a genuinely
new post (`…/2`, absent from the held list) is dropped; conversely two raw
items with distinct `id`s but the same uri are both kept, reintroducing an
already-present uri. -/
theorem loadMore_dedup_ignores_uri :
    (loadMoreOp feedCfg 0 (fun _ => .ok { feed := [c5post2], cursor := none }) c5state).posts
        = [c5post1] ∧
    c5post2.uri ≠ c5post1.uri ∧
    (loadMoreOp feedCfg 0 (fun _ => .ok { feed := [c5rawB], cursor := none }) c5stateRaw).posts
        = [c5rawA, c5rawB] ∧
    c5rawB.uri = c5rawA.uri := by
  refine ⟨by decide, by decide, by decide, by decide⟩

/-- The error-path final state of a failed fetch, relative to the state at
the exhausting invocation's entry. -/
def feedFailState (cfg : FeedConfig) (loadMore forceRefresh : Bool) (e : JsError)
    (st : FeedState) : FeedState :=
  let base := if !loadMore && !forceRefresh then ([] : List FeedPost) else st.posts
  let fb : List FeedPost × Option String :=
    if !loadMore then
      match cacheLookup st.cache cfg.cacheKey with
      | some entry =>
        if entry.data.length > 0 then (entry.data, entry.cursor) else (base, st.cursor)
      | none => (base, st.cursor)
    else (base, st.cursor)
  { posts := fb.1, cursor := fb.2, loading := false, error := some e,
    hasMore := st.hasMore, cache := st.cache, retryCount := st.retryCount }

theorem fetchFeedGo_exhaust (cfg : FeedConfig) (now : ℤ)
    (outcomes : Nat → Except JsError FeedPage) (loadMore forceRefresh : Bool)
    (es : Nat → JsError) (hout : ∀ n, outcomes n = .error (es n))
    (fuel : Nat) (st : FeedState) (hrc : ¬ st.retryCount < cfg.retryCount)
    (hstale : loadMore = false → forceRefresh = false →
      (match cacheLookup st.cache cfg.cacheKey with
       | some entry => ¬(now - entry.timestamp < cfg.cacheTime)
       | none => True)) :
    fetchFeedGo cfg now outcomes loadMore forceRefresh fuel st =
      feedFailState cfg loadMore forceRefresh (es st.retryCount) st := by
  rw [fetchFeedGo]
  rcases hcl : cacheLookup st.cache cfg.cacheKey with _ | entry
  · cases loadMore <;> cases forceRefresh <;> simp [feedFailState, hout, hrc, hcl]
  · cases loadMore with
    | true => simp [feedFailState, hout, hrc, hcl]
    | false =>
      cases forceRefresh with
      | true =>
        simp [feedFailState, hout, hrc, hcl]
        by_cases hlen : 0 < entry.data.length <;> simp [hlen]
      | false =>
        have hst := hstale rfl rfl
        rw [hcl] at hst
        simp [feedFailState, hout, hrc, hcl, hst]
        by_cases hlen : 0 < entry.data.length <;> simp [hlen]

/-- One failing attempt below the retry bound re-enters `fetchFeedGo` with
the retry counter incremented (and, for a plain initial load, the posts
cleared). -/
theorem fetchFeedGo_step (cfg : FeedConfig) (now : ℤ)
    (outcomes : Nat → Except JsError FeedPage) (loadMore forceRefresh : Bool)
    (es : Nat → JsError) (hout : ∀ n, outcomes n = .error (es n))
    (fuel : Nat) (st : FeedState) (hlt : st.retryCount < cfg.retryCount)
    (hstale : loadMore = false → forceRefresh = false →
      (match cacheLookup st.cache cfg.cacheKey with
       | some entry => ¬(now - entry.timestamp < cfg.cacheTime)
       | none => True)) :
    fetchFeedGo cfg now outcomes loadMore forceRefresh (fuel + 1) st =
      fetchFeedGo cfg now outcomes loadMore forceRefresh fuel
        { st with posts := if !loadMore && !forceRefresh then [] else st.posts,
                  loading := false, retryCount := st.retryCount + 1 } := by
  conv => lhs; rw [fetchFeedGo]
  rcases hcl : cacheLookup st.cache cfg.cacheKey with _ | entry
  · cases loadMore <;> cases forceRefresh <;> simp [hout, hlt, hcl]
  · cases loadMore with
    | true => simp [hout, hlt, hcl]
    | false =>
      cases forceRefresh with
      | true => simp [hout, hlt, hcl]
      | false =>
        have hst := hstale rfl rfl
        rw [hcl] at hst
        simp [hout, hlt, hcl, hst]

/-- `feedFailState` only reads the reset post list, the cursor, `hasMore`,
the cache and the retry counter of its state argument. -/
theorem feedFailState_eq_of (cfg : FeedConfig) (loadMore forceRefresh : Bool) (e : JsError)
    (a b : FeedState)
    (hp : (if !loadMore && !forceRefresh then ([] : List FeedPost) else a.posts) =
      (if !loadMore && !forceRefresh then ([] : List FeedPost) else b.posts))
    (hc : a.cursor = b.cursor) (hh : a.hasMore = b.hasMore) (hca : a.cache = b.cache)
    (hrc : a.retryCount = b.retryCount) :
    feedFailState cfg loadMore forceRefresh e a = feedFailState cfg loadMore forceRefresh e b := by
  simp only [feedFailState, hp, hc, hh, hca, hrc]

theorem fetchFeedGo_allFail (cfg : FeedConfig) (now : ℤ)
    (outcomes : Nat → Except JsError FeedPage) (loadMore forceRefresh : Bool)
    (es : Nat → JsError) (hout : ∀ n, outcomes n = .error (es n)) :
    ∀ fuel st, cfg.retryCount ≤ fuel + st.retryCount → st.retryCount ≤ cfg.retryCount →
      (loadMore = false → forceRefresh = false →
        (match cacheLookup st.cache cfg.cacheKey with
         | some entry => ¬(now - entry.timestamp < cfg.cacheTime)
         | none => True)) →
      fetchFeedGo cfg now outcomes loadMore forceRefresh fuel st =
        feedFailState cfg loadMore forceRefresh (es cfg.retryCount)
          { st with retryCount := cfg.retryCount } := by
  intro fuel
  induction fuel with
  | zero =>
    intro st hfuel hrc hstale
    have hrceq : st.retryCount = cfg.retryCount := le_antisymm hrc (by omega)
    have := fetchFeedGo_exhaust cfg now outcomes loadMore forceRefresh es hout 0 st
      (by omega) hstale
    rw [this, hrceq]
    have hsteq : { st with retryCount := cfg.retryCount } = st := by
      cases st; simp_all
    rw [hsteq]
  | succ fuel ih =>
    intro st hfuel hrc hstale
    by_cases hlt : st.retryCount < cfg.retryCount
    · rw [fetchFeedGo_step cfg now outcomes loadMore forceRefresh es hout fuel st hlt hstale]
      rw [ih _ (by simp; omega) (by simp; omega) (by simpa using hstale)]
      apply feedFailState_eq_of <;>
        cases loadMore <;> cases forceRefresh <;> simp
    · have := fetchFeedGo_exhaust cfg now outcomes loadMore forceRefresh es hout (fuel + 1) st
        hlt hstale
      rw [this]
      have hrceq : st.retryCount = cfg.retryCount := le_antisymm hrc (by omega)
      rw [hrceq]
      have hsteq : { st with retryCount := cfg.retryCount } = st := by
        cases st; simp_all
      rw [hsteq]

/-- C6, counterexample: a failed `refresh()` does NOT always leave the
displayed post list unchanged. With two posts on screen after pagination
and a one-post cached entry for the key, exhausting the retries replaces
the displayed list by the cached snapshot: the error is exposed, but the
list changed. -/
theorem refresh_failure_changes_list :
    (refreshOp feedCfg 100000 (fun _ => .error srvErr) c6state).posts = [c5post1] ∧
    (refreshOp feedCfg 100000 (fun _ => .error srvErr) c6state).posts ≠ c6state.posts ∧
    (refreshOp feedCfg 100000 (fun _ => .error srvErr) c6state).error = some srvErr := by
  have h := fetchFeedGo_allFail feedCfg 100000 (fun _ => .error srvErr) false true
    (fun _ => srvErr) (fun _ => rfl) feedCfg.retryCount
    { c6state with error := none, retryCount := 0 } (by simp) (by simp)
    (fun _ hff => Bool.noConfusion hff)
  unfold refreshOp fetchFeed
  rw [h]
  refine ⟨by decide, by decide, by decide⟩

/-- C6, amended: a `refresh()` whose attempts all ultimately fail exposes
the last error as non-null; the displayed list is left unchanged when the
cache holds no non-empty entry for the feed key, and is replaced by the
cached snapshot when it does. -/
theorem refresh_failure_error_and_fallback (cfg : FeedConfig) (now : ℤ)
    (outcomes : Nat → Except JsError FeedPage) (es : Nat → JsError)
    (hout : ∀ n, outcomes n = .error (es n)) (st : FeedState) :
    (refreshOp cfg now outcomes st).error = some (es cfg.retryCount) ∧
    (refreshOp cfg now outcomes st).posts =
      (match cacheLookup st.cache cfg.cacheKey with
       | some entry => if entry.data.length > 0 then entry.data else st.posts
       | none => st.posts) := by
  have h := fetchFeedGo_allFail cfg now outcomes false true es hout cfg.retryCount
    { st with error := none, retryCount := 0 } (by simp) (by simp)
    (fun _ hff => Bool.noConfusion hff)
  unfold refreshOp fetchFeed
  rw [h]
  refine ⟨by simp [feedFailState], ?_⟩
  rcases hcl : cacheLookup st.cache cfg.cacheKey with _ | entry <;>
    simp [feedFailState, hcl] <;> split <;> rfl

/-- Witness for C6's amended statement: with a non-empty display and an
empty cache, the failed refresh keeps the posts and sets the error. -/
theorem refresh_failure_error_and_fallback_witness :
    (refreshOp feedCfg 0 (fun _ => .error srvErr) c10state).posts = c10state.posts ∧
    (refreshOp feedCfg 0 (fun _ => .error srvErr) c10state).error = some srvErr := by
  have h := refresh_failure_error_and_fallback feedCfg 0 (fun _ => .error srvErr)
    (fun _ => srvErr) (fun _ => rfl) c10state
  refine ⟨by rw [h.2]; rfl, by rw [h.1]⟩

/-- C10: a plain initial load (neither load-more nor forced refresh) whose
cache entry is missing or stale clears the held list before fetching; if
every attempt then fails, the previously displayed posts are not retained:
the final list is the non-empty cached entry when one exists, and empty
otherwise, with the error set. -/
theorem initialLoad_not_retained (cfg : FeedConfig) (now : ℤ)
    (outcomes : Nat → Except JsError FeedPage) (es : Nat → JsError)
    (hout : ∀ n, outcomes n = .error (es n)) (st : FeedState)
    (hrc : st.retryCount = 0)
    (hstale : match cacheLookup st.cache cfg.cacheKey with
      | some entry => ¬(now - entry.timestamp < cfg.cacheTime)
      | none => True) :
    (fetchFeed cfg now outcomes false false st).error = some (es cfg.retryCount) ∧
    (fetchFeed cfg now outcomes false false st).posts =
      (match cacheLookup st.cache cfg.cacheKey with
       | some entry => if entry.data.length > 0 then entry.data else []
       | none => []) := by
  have h := fetchFeedGo_allFail cfg now outcomes false false es hout cfg.retryCount st
    (by omega) (by omega) (fun _ _ => hstale)
  unfold fetchFeed
  rw [h]
  refine ⟨by simp [feedFailState], ?_⟩
  rcases hcl : cacheLookup st.cache cfg.cacheKey with _ | entry <;>
    simp [feedFailState, hcl] <;> split <;> rfl

/-- Witness for C10: two posts on display, empty cache, every attempt
failing — the final list is empty, not the previously displayed one. -/
theorem initialLoad_not_retained_witness :
    (fetchFeed feedCfg 0 (fun _ => .error srvErr) false false c10state).posts = [] ∧
    (fetchFeed feedCfg 0 (fun _ => .error srvErr) false false c10state).error = some srvErr ∧
    c10state.posts ≠ [] := by
  have h := initialLoad_not_retained feedCfg 0 (fun _ => .error srvErr) (fun _ => srvErr)
    (fun _ => rfl) c10state rfl (by simp [c10state, feedCfg, cacheLookup])
  refine ⟨by rw [h.2]; rfl, by rw [h.1], by decide⟩

/-- The default retry decision accepts the three-errors scenario's server
error at every attempt. -/
theorem defaultShouldRetry_srvErr : ∀ a, defaultShouldRetry true srvErr a = true := by
  intro a
  have hinc : jsIncludes "" "offline" = false := by decide
  simp [defaultShouldRetry, srvErr, isAppErrorCls, isNetworkErrorCls, isTimeoutErrorCls, hinc]

/-- C8: the backoff delay is `min(baseDelay·2^attempt, maxDelay)` scaled
by a jitter factor in `[0.7, 1.3]` (and floored) when jitter is enabled,
and exactly the capped exponential otherwise; and in the scenario of three
consecutive server errors followed by success with `maxRetries = 3` (and
the default delays), the operation ultimately succeeds and the three
observed delays are non-decreasing and below the configured cap, for
every choice of jitter draws. -/
theorem backoff_formula_and_retry_scenario :
    (∀ (attempt : Nat) (opts : BackoffOptions) (rand : ℚ), 0 ≤ rand → rand < 1 →
      (opts.jitter = true → ∃ j : ℚ, 7/10 ≤ j ∧ j ≤ 13/10 ∧
        calculateBackoff attempt opts rand =
          ((⌊min (opts.baseDelay * 2 ^ attempt) opts.maxDelay * j⌋ : ℤ) : ℚ)) ∧
      (opts.jitter = false →
        calculateBackoff attempt opts rand = min (opts.baseDelay * 2 ^ attempt) opts.maxDelay)) ∧
    (∀ rands : Nat → ℚ, (∀ i, 0 ≤ rands i ∧ rands i < 1) →
      ∃ d0 d1 d2 : ℚ,
        withRetry c8outcomes {} (defaultShouldRetry true) rands = ([d0, d1, d2], .ok ()) ∧
        d0 ≤ d1 ∧ d1 ≤ d2 ∧ d2 ≤ 30000) := by
  constructor
  · intro attempt opts rand h0 h1
    constructor
    · intro hj
      refine ⟨7/10 + rand * (6/10), by linarith, by linarith, ?_⟩
      simp [calculateBackoff, hj]
    · intro hj
      simp [calculateBackoff, hj]
  · intro rands hr
    refine ⟨((⌊(1000 : ℚ) * (7/10 + rands 0 * (6/10))⌋ : ℤ) : ℚ),
      ((⌊(2000 : ℚ) * (7/10 + rands 1 * (6/10))⌋ : ℤ) : ℚ),
      ((⌊(4000 : ℚ) * (7/10 + rands 2 * (6/10))⌋ : ℤ) : ℚ), ?_, ?_, ?_, ?_⟩
    · have hrl : (isRateLimitErrorCls srvErr.cls && truthyRetryAfter srvErr.retryAfter) = false :=
        rfl
      simp only [withRetry, withRetryGo, c8outcomes, defaultShouldRetry_srvErr, hrl,
        calculateBackoff, Nat.reduceLT, reduceIte, Bool.false_eq_true, if_true, if_false]
      norm_num
    · have h1000 : (1000 : ℚ) * (7/10 + rands 0 * (6/10)) ≤ 2000 * (7/10 + rands 1 * (6/10)) := by
        have := (hr 0).1; have := (hr 0).2; have := (hr 1).1; have := (hr 1).2
        linarith
      exact_mod_cast Int.floor_le_floor h1000
    · have h2000 : (2000 : ℚ) * (7/10 + rands 1 * (6/10)) ≤ 4000 * (7/10 + rands 2 * (6/10)) := by
        have := (hr 1).1; have := (hr 1).2; have := (hr 2).1; have := (hr 2).2
        linarith
      exact_mod_cast Int.floor_le_floor h2000
    · have hle : (4000 : ℚ) * (7/10 + rands 2 * (6/10)) ≤ 5200 := by
        have := (hr 2).1; have := (hr 2).2
        linarith
      calc ((⌊(4000 : ℚ) * (7/10 + rands 2 * (6/10))⌋ : ℤ) : ℚ)
          ≤ (4000 : ℚ) * (7/10 + rands 2 * (6/10)) := Int.floor_le _
        _ ≤ 5200 := hle
        _ ≤ 30000 := by norm_num

/-- Witness for C8: at the midpoint jitter draw the scenario's hypotheses
hold and the properties evaluate. -/
theorem backoff_formula_and_retry_scenario_witness :
    (0 : ℚ) ≤ 1/2 ∧ (1/2 : ℚ) < 1 ∧
    ∃ d0 d1 d2 : ℚ,
      withRetry c8outcomes {} (defaultShouldRetry true) (fun _ => 1/2) = ([d0, d1, d2], .ok ()) ∧
      d0 ≤ d1 ∧ d1 ≤ d2 ∧ d2 ≤ 30000 :=
  ⟨by norm_num, by norm_num,
    backoff_formula_and_retry_scenario.2 (fun _ => 1/2) (fun _ => ⟨by norm_num, by norm_num⟩)⟩

/-- The delays of the retry loop accumulate in front of any already-slept
prefix: the result starts with the reversed accumulator. -/
theorem withRetryGo_fst_append {α : Type} (outcomes : Nat → Except JsError α)
    (opts : RetryOptions) (shouldRetry : JsError → Nat → Bool) (rands : Nat → ℚ) :
    ∀ fuel attempt delays,
      (withRetryGo outcomes opts shouldRetry rands attempt fuel delays).1 =
        delays.reverse ++ (withRetryGo outcomes opts shouldRetry rands attempt fuel []).1 := by
  intro fuel
  induction fuel with
  | zero =>
    intro attempt delays
    rw [withRetryGo, withRetryGo]
    rcases outcomes attempt with e | a <;> simp
  | succ fuel ih =>
    intro attempt delays
    rw [withRetryGo]
    conv => rhs; rw [withRetryGo]
    rcases houtc : outcomes attempt with e | a
    · simp only []
      by_cases hsr : shouldRetry e attempt
      · simp only [hsr, if_true]
        rw [ih _ (_ :: delays), ih _ [_]]
        simp
      · simp [hsr]
    · simp

/-- C9: the rate-limit retry decision and the use of the retry-after hint.
A rate-limit error that is marked retryable, while online, with no
"offline" in its message, is retried at every attempt; and when it carries
a retry-after hint, the first wait is the hint converted to milliseconds
if that is positive and strictly below five minutes, and otherwise the
computed exponential backoff delay — an out-of-range hint is dropped, not
capped. -/
theorem rateLimit_retry_and_hint (e : JsError) (hcls : e.cls = .rateLimitError)
    (hret : e.retryable = true) (hmsg : jsIncludes e.message "offline" = false) :
    (∀ attempt, defaultShouldRetry true e attempt = true) ∧
    (∀ (hint : ℚ), e.retryAfter = some hint →
      ∀ (opts : RetryOptions) (rands : Nat → ℚ) (outcomes : Nat → Except JsError Unit),
        outcomes 0 = .error e → 0 < opts.maxRetries →
        (withRetry outcomes opts (defaultShouldRetry true) rands).1.head? =
          some (if 0 < hint * 1000 ∧ hint * 1000 < 300000 then hint * 1000
                else calculateBackoff 0
                  { baseDelay := opts.baseDelay, maxDelay := opts.maxDelay,
                    jitter := opts.jitter } (rands 0))) := by
  have hretry : ∀ attempt, defaultShouldRetry true e attempt = true := by
    intro attempt
    simp [defaultShouldRetry, hcls, hret, hmsg, isAppErrorCls, isNetworkErrorCls,
      isTimeoutErrorCls]
  refine ⟨hretry, ?_⟩
  intro hint hh opts rands outcomes hout hmax
  obtain ⟨fuel, hfuel⟩ : ∃ fuel, opts.maxRetries = fuel + 1 :=
    ⟨opts.maxRetries - 1, by omega⟩
  unfold withRetry
  rw [hfuel, withRetryGo, hout]
  simp only [hretry, if_true]
  rw [withRetryGo_fst_append]
  by_cases h0 : hint = 0
  · simp [hcls, hh, isRateLimitErrorCls, truthyRetryAfter, h0]
  · simp [hcls, hh, isRateLimitErrorCls, truthyRetryAfter, h0]

/-- Witness for C9's amended statement: a rate-limit error with a
600-second hint (600000 ms, over the five-minute bound) makes the
scheduler sleep the computed backoff (1000 ms with jitter off), not the
hint and not 300000 ms. -/
theorem rateLimit_retry_and_hint_witness :
    (withRetry c9outcomes { jitter := false } (defaultShouldRetry true)
        (fun _ => 0)).1.head? = some 1000 ∧ (1000 : ℚ) ≠ 300000 ∧ (1000 : ℚ) ≠ 600000 := by
  have h := (rateLimit_retry_and_hint rlErr600 rfl rfl (by decide)).2 600 rfl
    { jitter := false } (fun _ => 0) c9outcomes rfl (by norm_num)
  refine ⟨?_, by norm_num, by norm_num⟩
  rw [h]
  norm_num [calculateBackoff]

/-- C9, counterexample: with the 600-second hint the claim's wait of
`min(600000, 300000) = 300000` ms is not what happens — the scheduler
sleeps the computed backoff delay of 1000 ms instead. -/
theorem rateLimit_hint_not_capped :
    (withRetry c9outcomes { jitter := false } (defaultShouldRetry true)
        (fun _ => 0)) = ([1000], .ok ()) ∧ (1000 : ℚ) ≠ 300000 := by
  constructor
  · have hretry : defaultShouldRetry true rlErr600 0 = true := by decide
    simp only [withRetry, withRetryGo, c9outcomes, hretry, Nat.reduceEqDiff, reduceIte,
      if_true, if_false]
    norm_num [rlErr600, isRateLimitErrorCls, truthyRetryAfter, calculateBackoff]
  · norm_num

/-! ## Segmenter infrastructure lemmas -/

theorem byteIndexTable_length (txt : List Nat) :
    (byteIndexTable txt).length = txt.length + 1 := by
  induction txt with
  | nil => rfl
  | cons u rest ih => simp [byteIndexTable, ih]

theorem byteIndexTable_head (txt : List Nat) :
    ∃ rest, byteIndexTable txt = 0 :: rest := by
  cases txt <;> simp [byteIndexTable]

theorem takeWhile_length_le {α : Type} (p : α → Bool) :
    ∀ l : List α, (l.takeWhile p).length ≤ l.length := by
  intro l
  induction l with
  | nil => simp
  | cons a rest ih =>
    by_cases hp : p a = true
    · rw [List.takeWhile_cons_of_pos hp]
      simpa using ih
    · rw [List.takeWhile_cons_of_neg (by simp [hp])]
      simp

theorem takeWhile_length_mono {α : Type} (p q : α → Bool) (h : ∀ a, p a = true → q a = true) :
    ∀ l : List α, (l.takeWhile p).length ≤ (l.takeWhile q).length := by
  intro l
  induction l with
  | nil => simp
  | cons a rest ih =>
    by_cases hp : p a = true
    · rw [List.takeWhile_cons_of_pos hp, List.takeWhile_cons_of_pos (h a hp)]
      simpa using ih
    · rw [List.takeWhile_cons_of_neg (by simp [hp])]
      simp

theorem byteTable_takeWhile_le (txt : List Nat) (b : ℤ) :
    ((byteIndexTable txt).takeWhile (fun (k : Nat) => decide ((k : ℤ) ≤ b))).length ≤
      (byteIndexTable txt).length :=
  takeWhile_length_le _ _

theorem byteTable_takeWhile_mono (txt : List Nat) {b1 b2 : ℤ} (hb : b1 ≤ b2) :
    ((byteIndexTable txt).takeWhile (fun (k : Nat) => decide ((k : ℤ) ≤ b1))).length ≤
      ((byteIndexTable txt).takeWhile (fun (k : Nat) => decide ((k : ℤ) ≤ b2))).length :=
  takeWhile_length_mono _ _ (by intro a ha; simp at ha ⊢; omega) _

theorem utf16OffsetOf_le_length {txt : List Nat} {b : ℤ} {u : Nat}
    (h : utf16OffsetOf txt b = .ok u) : u ≤ txt.length := by
  unfold utf16OffsetOf at h
  split at h
  · exact absurd h (by simp)
  · simp only [Except.ok.injEq] at h
    have h1 := byteTable_takeWhile_le txt b
    have h2 := byteIndexTable_length txt
    omega

theorem utf16OffsetOf_mono {txt : List Nat} {b1 b2 : ℤ} {u1 u2 : Nat}
    (hb : b1 ≤ b2) (h1 : utf16OffsetOf txt b1 = .ok u1) (h2 : utf16OffsetOf txt b2 = .ok u2) :
    u1 ≤ u2 := by
  unfold utf16OffsetOf at h1 h2
  split at h1
  · exact absurd h1 (by simp)
  · split at h2
    · exact absurd h2 (by simp)
    · simp only [Except.ok.injEq] at h1 h2
      have hm := byteTable_takeWhile_mono txt hb
      omega

theorem utf16OffsetOf_ok_of {txt : List Nat} {b : ℤ} (h0 : 0 ≤ b)
    (hb : b ≤ (utf8ByteLen txt : ℤ)) : ∃ u, utf16OffsetOf txt b = .ok u := by
  unfold utf16OffsetOf
  rw [if_neg (by omega)]
  exact ⟨_, rfl⟩

theorem jsSubstring_eq (txt : List Nat) {s e : Nat} (hse : s ≤ e) (hel : e ≤ txt.length) :
    jsSubstring txt s e = (txt.drop s).take (e - s) := by
  unfold jsSubstring
  have h1 : min s txt.length = s := min_eq_left (le_trans hse hel)
  have h2 : min e txt.length = e := min_eq_left hel
  simp only [h1, h2, min_eq_left hse, max_eq_right hse]

theorem slice_length (txt : List Nat) {s e : Nat} (hse : s ≤ e) (hel : e ≤ txt.length) :
    ((txt.drop s).take (e - s)).length = e - s := by
  simp only [List.length_take, List.length_drop]
  omega

theorem featureSegment_spec {φ : Feature} {s e : Nat} {t : List Nat} {sg : Segment}
    (h : featureSegment φ s e t = some sg) :
    sg.start = s ∧ sg.stop = e ∧ Segment.text sg = t ∧ sg.isPlain = false := by
  cases φ <;> simp [featureSegment] at h <;> subst h <;> exact ⟨rfl, rfl, rfl, rfl⟩

theorem facetCandidates_candOk {txt : List Nat} {f : Facet} (hf : facetWellFormed txt f) :
    ∀ c ∈ facetCandidates txt f, candOk txt c := by
  obtain ⟨idx, feats, hidx, hfeats, h0, hlt, hle⟩ := hf
  intro c hc
  obtain ⟨s, hs⟩ := @utf16OffsetOf_ok_of txt idx.byteStart h0
    (le_trans (le_of_lt hlt) hle)
  obtain ⟨e, he⟩ := @utf16OffsetOf_ok_of txt idx.byteEnd
    (le_trans h0 (le_of_lt hlt)) hle
  unfold facetCandidates at hc
  rw [hidx, hfeats] at hc
  simp only [hs, he] at hc
  have hse : s ≤ e := utf16OffsetOf_mono (le_of_lt hlt) hs he
  have hel : e ≤ txt.length := utf16OffsetOf_le_length he
  rw [List.mem_filterMap] at hc
  obtain ⟨feat, _, hfs⟩ := hc
  obtain ⟨h1, h2, h3, h4⟩ := featureSegment_spec hfs
  refine ⟨h4, ?_, ?_, ?_⟩
  · rw [h1, h2]; exact hse
  · rw [h2]; exact hel
  · rw [h1, h2, h3]; exact jsSubstring_eq txt hse hel

theorem mem_insertByStart {a s : Segment} :
    ∀ l, a ∈ insertByStart s l ↔ a = s ∨ a ∈ l := by
  intro l
  induction l with
  | nil => simp [insertByStart]
  | cons t rest ih =>
    by_cases h : s.start ≤ t.start
    · simp [insertByStart, h]
    · simp [insertByStart, h, ih]
      tauto

theorem insertByStart_sorted {s : Segment} :
    ∀ l, List.Pairwise (fun x y : Segment => x.start ≤ y.start) l →
      List.Pairwise (fun x y : Segment => x.start ≤ y.start) (insertByStart s l) := by
  intro l
  induction l with
  | nil => intro _; simp [insertByStart]
  | cons t rest ih =>
    intro hp
    rw [List.pairwise_cons] at hp
    by_cases h : s.start ≤ t.start
    · rw [insertByStart, if_pos h]
      rw [List.pairwise_cons]
      refine ⟨?_, List.pairwise_cons.mpr hp⟩
      intro y hy
      rcases List.mem_cons.mp hy with hy | hy
      · exact hy ▸ h
      · exact le_trans h (hp.1 y hy)
    · rw [insertByStart, if_neg h]
      rw [List.pairwise_cons]
      refine ⟨?_, ih hp.2⟩
      intro y hy
      rcases mem_insertByStart _ |>.mp hy with hy | hy
      · exact hy ▸ le_of_not_le h
      · exact hp.1 y hy

theorem mem_sortByStart {a : Segment} : ∀ l, a ∈ sortByStart l ↔ a ∈ l := by
  intro l
  induction l with
  | nil => simp [sortByStart]
  | cons t rest ih =>
    have hrw : sortByStart (t :: rest) = insertByStart t (sortByStart rest) := rfl
    rw [hrw, mem_insertByStart]
    simp [ih]

theorem sortByStart_sorted :
    ∀ l, List.Pairwise (fun x y : Segment => x.start ≤ y.start) (sortByStart l) := by
  intro l
  induction l with
  | nil => simp [sortByStart]
  | cons t rest ih =>
    have hrw : sortByStart (t :: rest) = insertByStart t (sortByStart rest) := rfl
    rw [hrw]
    exact insertByStart_sorted _ ih

/-- The first-wins filter keeps only well-formed candidates and produces a
left-to-right chain of ranges (each kept segment starts at or after the
previous one's end). -/
theorem acceptSegments_spec (txt : List Nat) :
    ∀ (rest accepted : List Segment),
      (∀ s ∈ accepted, candOk txt s) →
      (∀ s ∈ rest, candOk txt s) →
      List.Pairwise (fun x y : Segment => x.start ≤ y.start) rest →
      (∀ a ∈ accepted, ∀ r ∈ rest, a.start ≤ r.start) →
      List.Chain' (fun a b : Segment => a.stop ≤ b.start) accepted →
      (∀ s ∈ acceptSegments accepted rest, candOk txt s) ∧
      List.Chain' (fun a b : Segment => a.stop ≤ b.start) (acceptSegments accepted rest) := by
  intro rest
  induction rest with
  | nil =>
    intro accepted h1 _ _ _ h5
    rw [acceptSegments]
    exact ⟨h1, h5⟩
  | cons c rest ih =>
    intro accepted hacc hrest hsorted hrel hchain
    rw [List.pairwise_cons] at hsorted
    rw [acceptSegments]
    by_cases hov : accepted.any (fun v => overlapB c v)
    · rw [if_pos hov]
      exact ih accepted hacc (fun s hs => hrest s (List.mem_cons_of_mem _ hs)) hsorted.2
        (fun a ha r hr => hrel a ha r (List.mem_cons_of_mem _ hr)) hchain
    · rw [if_neg hov]
      have hnov : ∀ v ∈ accepted, ¬ (overlapB c v = true) := by
        intro v hv hovv
        exact hov (List.any_eq_true.mpr ⟨v, hv, hovv⟩)
      have hstop : ∀ v ∈ accepted, v.stop ≤ c.start := by
        intro v hv
        have h1 := hnov v hv
        have h2 := hrel v hv c (List.mem_cons_self _ _)
        simp only [overlapB, Bool.or_eq_true, Bool.and_eq_true, decide_eq_true_eq,
          not_or, not_and] at h1
        omega
      apply ih (accepted ++ [c])
      · intro s hs
        rcases List.mem_append.mp hs with hs | hs
        · exact hacc s hs
        · rw [List.mem_singleton.mp hs]
          exact hrest c (List.mem_cons_self _ _)
      · exact fun s hs => hrest s (List.mem_cons_of_mem _ hs)
      · exact hsorted.2
      · intro a ha r hr
        rcases List.mem_append.mp ha with ha | ha
        · exact hrel a ha r (List.mem_cons_of_mem _ hr)
        · rw [List.mem_singleton.mp ha]
          exact hsorted.1 r hr
      · rw [List.chain'_append]
        refine ⟨hchain, List.chain'_singleton _, ?_⟩
        intro x hx y hy
        rw [List.head?_cons, Option.mem_def, Option.some.injEq] at hy
        have hxmem : x ∈ accepted := List.mem_of_mem_getLast? hx
        rw [← hy]
        exact hstop x hxmem

/-- A list of positive length is not `isEmpty`. -/
theorem isEmpty_false_of_length_pos {α : Type} {l : List α} (h : 0 < l.length) :
    l.isEmpty = false := by
  cases l
  · simp at h
  · rfl

/-- The gap-filling walk over a chain of well-formed segments produces an
ordered, gapless, non-overlapping cover of the text from `pos` on. -/
theorem fillGaps_coverOk (txt : List Nat) :
    ∀ (valid : List Segment) (pos : Nat),
      (∀ s ∈ valid, candOk txt s) →
      List.Chain' (fun a b : Segment => a.stop ≤ b.start) valid →
      (∀ s ∈ valid.head?, pos ≤ s.start) →
      pos ≤ txt.length →
      coverOk txt pos (fillGaps txt pos valid) = true := by
  intro valid
  induction valid with
  | nil =>
    intro pos _ _ _ hpos
    rw [fillGaps]
    by_cases h : pos < txt.length
    · rw [if_pos h]
      have hsub := jsSubstring_eq txt (le_of_lt h) (le_refl txt.length)
      have hlen := slice_length txt (le_of_lt h) (le_refl txt.length)
      rw [hsub, coverOk, coverOk]
      simp only [Segment.isPlain, Segment.text, if_true, hlen, Bool.and_eq_true,
        Bool.not_eq_true', decide_eq_true_eq, beq_iff_eq]
      exact ⟨isEmpty_false_of_length_pos (by omega), trivial, by omega⟩
    · rw [if_neg h]
      rw [coverOk]
      simp only [beq_iff_eq]
      omega
  | cons s rest ih =>
    intro pos hall hchain hhead hpos
    obtain ⟨hnp, hse, hel, htext⟩ := hall s (List.mem_cons_self _ _)
    have hps : pos ≤ s.start := hhead s (by simp)
    have hlen : (Segment.text s).length = s.stop - s.start := by
      rw [htext]
      exact slice_length txt hse hel
    have hsl : s.start ≤ txt.length := le_trans hse hel
    rw [List.chain'_cons'] at hchain
    have hrec := ih s.stop (fun x hx => hall x (List.mem_cons_of_mem _ hx)) hchain.2
      hchain.1 hel
    have hstep : coverOk txt s.start (s :: fillGaps txt s.stop rest) = true := by
      rw [coverOk]
      simp only [hnp, Bool.false_eq_true, if_false, Bool.and_eq_true, beq_iff_eq,
        decide_eq_true_eq]
      refine ⟨⟨trivial, by omega⟩, ?_, ?_⟩
      · rw [hlen, htext]
      · rw [show s.start + (Segment.text s).length = s.stop by omega]
        exact hrec
    rw [fillGaps]
    by_cases hgap : s.start > pos
    · rw [if_pos hgap, List.singleton_append]
      have hsub := jsSubstring_eq txt hps hsl
      have hglen := slice_length txt hps hsl
      rw [hsub, coverOk]
      simp only [Segment.isPlain, Segment.text, if_true, Bool.and_eq_true,
        Bool.not_eq_true', decide_eq_true_eq]
      refine ⟨isEmpty_false_of_length_pos (by omega), by rw [hglen], ?_⟩
      rw [hglen, show pos + (s.start - pos) = s.start by omega]
      exact hstep
    · rw [if_neg hgap, List.nil_append]
      rw [show pos = s.start by omega]
      exact hstep

/-- Concatenating the texts of a cover from `pos` rebuilds the text's
suffix from `pos`. -/
theorem segConcat_of_coverOk (txt : List Nat) :
    ∀ (l : List Segment) (pos : Nat), coverOk txt pos l = true → segConcat l = txt.drop pos := by
  intro l
  induction l with
  | nil =>
    intro pos h
    rw [coverOk] at h
    simp only [beq_iff_eq] at h
    rw [segConcat]
    simp [List.drop_eq_nil_of_le (le_of_eq h.symm)]
  | cons s rest ih =>
    intro pos h
    rw [coverOk] at h
    simp only [Bool.and_eq_true, decide_eq_true_eq] at h
    obtain ⟨-, htext, hrest⟩ := h
    have hc := ih (pos + (Segment.text s).length) hrest
    have hconcat : segConcat (s :: rest) = Segment.text s ++ segConcat rest := by
      rw [segConcat, segConcat, List.flatMap_cons]
    rw [hconcat, hc]
    generalize hk : (Segment.text s).length = k at htext
    rw [htext]
    have hdd : txt.drop (pos + k) = (txt.drop pos).drop k := by
      rw [List.drop_drop, Nat.add_comm]
    rw [hdd]
    exact List.take_append_drop _ _

/-- C2: for every non-empty text and well-formed facet list with pairwise
non-overlapping converted UTF-16 ranges, the segmenter's output is an
ordered, gapless, non-overlapping cover of `[0, len(text))`, and
concatenating the segments' texts in order reproduces the input exactly. -/
theorem segmenter_cover_roundtrip (txt : List Nat) (facets : List Facet)
    (htxt : txt ≠ [])
    (hwf : ∀ f ∈ facets, facetWellFormed txt f)
    (hdisj : List.Pairwise (convertedDisjoint txt) facets) :
    coverOk txt 0 (richTextSegments txt facets) = true ∧
    segConcat (richTextSegments txt facets) = txt := by
  have hcover : coverOk txt 0 (richTextSegments txt facets) = true := by
    unfold richTextSegments
    rw [if_neg (by simpa using htxt)]
    by_cases hf : facets.isEmpty
    · rw [if_pos hf]
      rw [coverOk, coverOk]
      simp only [Segment.isPlain, Segment.text, if_true, Bool.and_eq_true,
        Bool.not_eq_true', decide_eq_true_eq, beq_iff_eq]
      refine ⟨isEmpty_false_of_length_pos ?_, by simp, by simp⟩
      cases txt
      · exact absurd rfl htxt
      · simp
    · rw [if_neg hf]
      have hcands : ∀ c ∈ facets.flatMap (facetCandidates txt), candOk txt c := by
        intro c hc
        rw [List.mem_flatMap] at hc
        obtain ⟨f, hfm, hcf⟩ := hc
        exact facetCandidates_candOk (hwf f hfm) c hcf
      have hsortedOk : ∀ c ∈ sortByStart (facets.flatMap (facetCandidates txt)), candOk txt c :=
        fun c hc => hcands c ((mem_sortByStart _).mp hc)
      have haccept := acceptSegments_spec txt (sortByStart (facets.flatMap (facetCandidates txt)))
        [] (by simp) hsortedOk (sortByStart_sorted _) (by simp) (by simp)
      exact fillGaps_coverOk txt _ 0 haccept.1 haccept.2 (fun s _ => Nat.zero_le _)
        (Nat.zero_le _)
  refine ⟨hcover, ?_⟩
  have := segConcat_of_coverOk txt _ 0 hcover
  simpa using this

/-- Witness for C2: a two-character text with one well-formed link facet;
the cover and round-trip checks evaluate to true. -/
theorem segmenter_cover_roundtrip_witness :
    ([104, 105] : List Nat) ≠ [] ∧
    (∀ f ∈ [Facet.mk (some ⟨0, 1⟩) (some [Feature.link (JsValue.str "x")])],
      facetWellFormed [104, 105] f) ∧
    coverOk [104, 105] 0 (richTextSegments [104, 105]
      [Facet.mk (some ⟨0, 1⟩) (some [Feature.link (JsValue.str "x")])]) = true ∧
    segConcat (richTextSegments [104, 105]
      [Facet.mk (some ⟨0, 1⟩) (some [Feature.link (JsValue.str "x")])]) = [104, 105] := by
  have hwf : ∀ f ∈ [Facet.mk (some ⟨0, 1⟩) (some [Feature.link (JsValue.str "x")])],
      facetWellFormed [104, 105] f := by
    intro f hf
    rw [List.mem_singleton.mp hf]
    exact ⟨⟨0, 1⟩, [Feature.link (JsValue.str "x")], rfl, rfl, by norm_num, by norm_num,
      by norm_num [utf8ByteLen, isHighSurrogate, utf16UnitUtf8Len]⟩
  have h := segmenter_cover_roundtrip [104, 105]
    [Facet.mk (some ⟨0, 1⟩) (some [Feature.link (JsValue.str "x")])]
    (by decide) hwf (List.pairwise_singleton _ _)
  exact ⟨by decide, hwf, h.1, h.2⟩

/-- C3: first-wins overlap resolution. For any text and two facets whose
converted UTF-16 ranges genuinely overlap (the second starting at or after
the first), the segmenter keeps the earlier-starting facet's segment and
drops the later one: the output is exactly the optional leading plain gap,
the first facet's annotated segment, and the optional trailing plain text
— the second facet's span survives only inside that plain text. -/
theorem segmenter_first_wins (txt : List Nat) (fA fB : Facet)
    (iA iB : FacetIndex) (φA φB : Feature) (sA sB : Segment)
    (uAs uAe uBs uBe : Nat)
    (hiA : fA.index = some iA) (hfA : fA.features = some [φA])
    (hiB : fB.index = some iB) (hfB : fB.features = some [φB])
    (hcAs : utf16OffsetOf txt iA.byteStart = .ok uAs)
    (hcAe : utf16OffsetOf txt iA.byteEnd = .ok uAe)
    (hcBs : utf16OffsetOf txt iB.byteStart = .ok uBs)
    (hcBe : utf16OffsetOf txt iB.byteEnd = .ok uBe)
    (hsA : featureSegment φA uAs uAe (jsSubstring txt uAs uAe) = some sA)
    (hsB : featureSegment φB uBs uBe (jsSubstring txt uBs uBe) = some sB)
    (hAB : uAs ≤ uBs) (hovA : uBs < uAe) (hovB : uBs < uBe) :
    richTextSegments txt [fA, fB] =
      (if 0 < uAs then [Segment.plain (jsSubstring txt 0 uAs)] else []) ++
        sA :: (if uAe < txt.length then [Segment.plain (jsSubstring txt uAe txt.length)] else []) := by
  obtain ⟨hA1, hA2, hA3, hA4⟩ := featureSegment_spec hsA
  obtain ⟨hB1, hB2, hB3, hB4⟩ := featureSegment_spec hsB
  have hel : uAe ≤ txt.length := utf16OffsetOf_le_length hcAe
  have hlen : 0 < txt.length := by omega
  have hcA : facetCandidates txt fA = [sA] := by
    unfold facetCandidates
    rw [hiA, hfA]
    simp only [hcAs, hcAe, List.filterMap_cons, List.filterMap_nil, hsA]
  have hcB : facetCandidates txt fB = [sB] := by
    unfold facetCandidates
    rw [hiB, hfB]
    simp only [hcBs, hcBe, List.filterMap_cons, List.filterMap_nil, hsB]
  have hflat : ([fA, fB] : List Facet).flatMap (facetCandidates txt) = [sA, sB] := by
    simp [hcA, hcB]
  have hsort : sortByStart [sA, sB] = [sA, sB] := by
    have h1 : sortByStart [sA, sB] = insertByStart sA (insertByStart sB []) := rfl
    rw [h1, insertByStart, insertByStart, if_pos (by rw [hA1, hB1]; exact hAB)]
  have hov : overlapB sB sA = true := by
    unfold overlapB
    rw [hA1, hA2, hB1]
    simp only [Bool.or_eq_true, Bool.and_eq_true, decide_eq_true_eq]
    exact Or.inl ⟨hAB, hovA⟩
  have hacc : acceptSegments [] [sA, sB] = [sA] := by
    rw [acceptSegments, if_neg (by simp)]
    rw [acceptSegments, if_pos (by simp [hov]), acceptSegments]
    simp
  unfold richTextSegments
  rw [if_neg (by simp [isEmpty_false_of_length_pos hlen]), if_neg (by simp)]
  rw [hflat, hsort, hacc]
  rw [fillGaps, fillGaps]
  rw [hA1, hA2]

/-- Witness for C3: text `"abc"`, a link facet on bytes `[0,2)` and a tag
facet on bytes `[1,3)`; the output keeps the link segment and renders the
rest as plain text. -/
theorem segmenter_first_wins_witness :
    richTextSegments [97, 98, 99]
      [Facet.mk (some ⟨0, 2⟩) (some [Feature.link (JsValue.str "u")]),
       Facet.mk (some ⟨1, 3⟩) (some [Feature.tag (JsValue.str "t")])] =
      [Segment.link 0 2 [97, 98] (JsValue.str "u"), Segment.plain [99]] := by
  have h := segmenter_first_wins [97, 98, 99]
    (Facet.mk (some ⟨0, 2⟩) (some [Feature.link (JsValue.str "u")]))
    (Facet.mk (some ⟨1, 3⟩) (some [Feature.tag (JsValue.str "t")]))
    ⟨0, 2⟩ ⟨1, 3⟩ (Feature.link (JsValue.str "u")) (Feature.tag (JsValue.str "t"))
    (Segment.link 0 2 [97, 98] (JsValue.str "u"))
    (Segment.hashtag 1 3 [98, 99] (JsValue.str "t"))
    0 2 1 3 rfl rfl rfl rfl (by rfl) (by rfl) (by rfl) (by rfl)
    (by rfl) (by rfl) (by norm_num) (by norm_num) (by norm_num)
  rw [h]
  rfl

end AT
